import Mathlib

/-!
Verification of the core of `tasker` (src/tasker/task.py, src/tasker/progress.py):
an incremental task-dependency engine.  Two shallow embeddings are developed.

1. The dependency walker (`TaskUnit._walk_up`, task.py lines 268-338) together
   with `TaskUnit._output_mtime`, `_uniq`, `TaskUnit.run` dispatch
   (`TaskUnit.run` runs the user computation and saves outputs;
   `TaskUnitNoStore.run` is a no-op, task.py lines 433-435), and the public
   entry points `sync` / `is_current` / `report` (task.py lines 399-417).
   File modification times are embedded as integers (the source uses POSIX
   float timestamps; only their ordering and the `-1` missing-output sentinel
   matter, both preserved exactly).  The graph of task units is embedded as
   numbered nodes; the user computation of a storing task is an opaque effect
   on the file system (it is arbitrary user code in the source), while a
   non-storing task's `run()` does nothing, exactly as in the source.
   The source recursion is unbounded; the embedded `walkUp` takes a fuel
   argument, and we prove that fuel `n + 1` (one more than the number of
   nodes) can never run out, because the `_syncing` re-entrancy flags bound
   the recursion depth.

2. The locking / status-record protocol of `TaskUnit.__enter__` / `__exit__` /
   `run` (task.py lines 203-247 and 362-392), `Tasker.is_working` (573-587),
   `Tasker.unlock` (593-601), `_sanitize_filename` (43-49), and the status
   records written through `Progress` (progress.py).  The state carries the
   directory's status-record file (as a parsed JSON document, or a marker for
   an absent/unreadable or unparseable file), the set of per-task lock marker
   files, the process working directory and the in-process `_running` flag.
   Wall-clock fields of status records (`started`, `elapsed_time`) are omitted:
   no examined behaviour reads them.  Plain file I/O (mkdir, touch, atomic
   status write) is assumed to succeed.
-/

namespace TaskerV

/-! ## Part 1: the dependency walker -/

/-- A file-system snapshot: modification time per file id; a file with no
entry is missing.  Lookups take the first entry, matching a real directory
in which each path occurs once. -/
abbrev World := List (Nat × Int)

/-- `mtime` of a file: `none` embeds the `OSError` raised for a missing file. -/
def World.mtimeOf (w : World) (f : Nat) : Option Int :=
  (w.find? (fun p => p.1 == f)).map (fun p => p.2)

/-- `TaskUnit` vs `TaskUnitNoStore`: a `store` node's `run()` executes the
user computation and saves outputs; a `noStore` node's `run()` is `pass`. -/
inductive TKind where
  | store
  | noStore
  deriving DecidableEq, Repr

/-- The registry's dependency graph, as fixed at `TaskUnit.__init__` time:
`input_files`, `output_files` and `input_tasks` are computed once at
construction (task.py lines 128-131).  `eff v` is the opaque effect of node
`v`'s user computation (plus output saving) on the file system; the source
lets `func` be arbitrary user code. -/
structure Graph where
  n : Nat
  kind : Nat → TKind
  inputFiles : Nat → List Nat
  outputFiles : Nat → List Nat
  inputTasks : Nat → List Nat
  eff : Nat → World → World

/-- Well-formedness: registered tasks only depend on registered tasks. -/
def Graph.wfG (g : Graph) : Prop :=
  ∀ v, v < g.n → ∀ t ∈ g.inputTasks v, t < g.n

/-- Python `max()` of a list known to be nonempty (`input_mtimes` always
starts with the sentinel `-1`); the `[]` case is unreachable. -/
def pyMax : List Int → Int
  | [] => -1
  | x :: xs => xs.foldl max x

/-- `TaskUnit._output_mtime` (task.py lines 255-266): `none` if no outputs
are declared; `some (-1)` if any output file is missing; otherwise the
newest output modification time. -/
def outputMtime (g : Graph) (v : Nat) (w : World) : Option Int :=
  let fs := g.outputFiles v
  if fs.isEmpty then none
  else if fs.all (fun f => (w.mtimeOf f).isSome) then some (pyMax (fs.filterMap w.mtimeOf))
  else some (-1)

/-- The `input_mtimes` list of `_walk_up` (task.py lines 298-304): the
sentinel `-1`, then each upstream result's effective mtime, then the mtime of
each input file that exists.  Missing input files contribute nothing here. -/
def inputMtimes (g : Graph) (v : Nat) (w : World) (upMtimes : List Int) : List Int :=
  -1 :: upMtimes ++ (g.inputFiles v).filterMap w.mtimeOf

/-- The input files of `v` that are missing (collected at task.py line 304). -/
def missingInputs (g : Graph) (v : Nat) (w : World) : List Nat :=
  (g.inputFiles v).filter (fun f => (w.mtimeOf f).isNone)

/-- The run decision of `_walk_up` (task.py lines 312-314): forced, or
outputs missing, or outputs older than the newest dependency, or some
upstream task not current. -/
def shouldRun (force : Bool) (om : Option Int) (ims : List Int) (allCur : Bool) : Bool :=
  force || decide (om = some (-1)) ||
    (match om with
     | none => false
     | some m => decide (m < pyMax ims)) ||
    !allCur

/-- The dictionary returned by `_walk_up` (task.py lines 289-296, 338). -/
structure WalkRes where
  all_current : Bool
  needed : List Nat
  visited : List Nat
  done : Bool
  mtime : Int
  deriving DecidableEq, Repr

/-- A traversal outcome: the node's result dictionary, the file system after
the traversal, the storing tasks whose computation was executed, and the
missing-input warnings emitted. -/
structure WalkOut where
  res : WalkRes
  world : World
  ran : List Nat
  warns : List (Nat × Nat)
  deriving DecidableEq, Repr

/-- Errors of the traversal: the cyclic-dependency `RuntimeError`
(task.py lines 280-282), the failed-to-update `RuntimeError`
(lines 324-326), and exhaustion of the embedding's fuel. -/
inductive WalkErr where
  | cyclic (t : Nat)
  | failedUpdate (t : Nat)
  | fuelOut
  deriving DecidableEq, Repr

deriving instance DecidableEq for Except

instance instDecEqChildrenOut :
    DecidableEq (List WalkRes × World × List Nat × List (Nat × Nat)) :=
  fun a b => inferInstanceAs (Decidable (a = b))

/-- `self.run()` as called from `_walk_up` (task.py line 322):
`TaskUnit.run` executes the user computation and saves declared outputs
(its effect on files is `g.eff v`); `TaskUnitNoStore.run` does nothing
(task.py lines 433-435).  Also reports which computations were executed. -/
def runDispatch (g : Graph) (v : Nat) (w : World) : World × List Nat :=
  match g.kind v with
  | .store => (g.eff v w, [v])
  | .noStore => (w, [])

/-- `result['mtime']` (task.py lines 334-337): the node's own output mtime,
or the newest input mtime for a node with no outputs. -/
def resMtime (om : Option Int) (ims : List Int) : Int :=
  match om with
  | none => pyMax ims
  | some m => m

/-- Sequential recursion over `self.input_tasks` (the list comprehension at
task.py line 285), threading the file system, the executed-task log and the
warning log. -/
def walkList (f : Nat → World → Except WalkErr WalkOut) :
    List Nat → World → Except WalkErr (List WalkRes × World × List Nat × List (Nat × Nat))
  | [], w => .ok ([], w, [], [])
  | t :: ts, w =>
    match f t w with
    | .error e => .error e
    | .ok o =>
      match walkList f ts o.world with
      | .error e => .error e
      | .ok (rs, wr, ranr, warnr) => .ok (o.res :: rs, wr, o.ran ++ ranr, o.warns ++ warnr)

/-- The body of `_walk_up` after the upstream recursion (task.py lines
289-338), applied to the outcome of walking `input_tasks`. -/
def walkFrame (g : Graph) (run force : Bool) (v : Nat)
    (children : Except WalkErr (List WalkRes × World × List Nat × List (Nat × Nat))) :
    Except WalkErr WalkOut :=
  match children with
  | .error e => .error e
  | .ok (ups, w1, ran1, warns1) =>
    let allCur := ups.all (fun r => r.all_current)
    let needed0 := (ups.map (fun r => r.needed)).flatten
    let visited := v :: (ups.map (fun r => r.visited)).flatten
    let ims := inputMtimes g v w1 (ups.map (fun r => r.mtime))
    let miss := missingInputs g v w1
    let om := outputMtime g v w1
    if shouldRun force om ims allCur then
      if run then
        let rd := runDispatch g v w1
        match outputMtime g v rd.1 with
        | some m2 =>
          if m2 < pyMax ims then .error (.failedUpdate v)
          else .ok ⟨⟨false, needed0 ++ [v], visited, false, m2⟩, rd.1,
                    ran1 ++ rd.2, warns1 ++ miss.map (fun fmiss => (v, fmiss))⟩
        | none => .ok ⟨⟨false, needed0 ++ [v], visited, false, pyMax ims⟩, rd.1,
                       ran1 ++ rd.2, warns1 ++ miss.map (fun fmiss => (v, fmiss))⟩
      else
        .ok ⟨⟨false, needed0 ++ [v], visited, false, resMtime om ims⟩, w1, ran1, warns1⟩
    else if decide (om = none) && (!miss.isEmpty || !ups.all (fun r => r.done)) then
      .ok ⟨⟨allCur, needed0, visited, false, pyMax ims⟩, w1, ran1, warns1⟩
    else
      .ok ⟨⟨allCur, needed0, visited, true, resMtime om ims⟩, w1, ran1, warns1⟩

/-- `TaskUnit._walk_up` (task.py lines 268-338).  `S` is the set of tasks
whose `_syncing` flag is set (the flag is set around the upstream recursion
only, lines 283-287, hence `insert v S` for the children and `S` for the
frame).  Children are walked with `force = False` (line 285 passes only
`run`).  The fuel argument makes the unbounded source recursion structural;
`walkUp_fuel_sufficient` shows `g.n + 1` never runs out. -/
def walkUp (g : Graph) (run : Bool) :
    Nat → Bool → Finset Nat → Nat → World → Except WalkErr WalkOut
  | 0, _, _, _, _ => .error .fuelOut
  | fuel + 1, force, S, v, w =>
    if v ∈ S then .error (.cyclic v)
    else walkFrame g run force v
      (walkList (fun t wc => walkUp g run fuel false (insert v S) t wc) (g.inputTasks v) w)

/-- The walk over the children of one frame, named for reuse in statements. -/
def walkChildren (g : Graph) (run : Bool) (fuel : Nat) (S : Finset Nat) :
    List Nat → World → Except WalkErr (List WalkRes × World × List Nat × List (Nat × Nat)) :=
  walkList (fun t wc => walkUp g run fuel false S t wc)

/-- `TaskUnit.sync` (task.py lines 399-401): `_walk_up(run=True)`. -/
def syncT (g : Graph) (v : Nat) (w : World) : Except WalkErr WalkOut :=
  walkUp g true (g.n + 1) false ∅ v w

/-- `TaskUnit.is_current` (task.py lines 403-413): `_walk_up()['done']`. -/
def isCurrentT (g : Graph) (v : Nat) (w : World) : Except WalkErr Bool :=
  (walkUp g false (g.n + 1) false ∅ v w).map (fun o => o.res.done)

/-- `_uniq` (task.py lines 51-56): the loop appending each item not yet kept. -/
def uniqAux : List Nat → List Nat → List Nat
  | r, [] => r
  | r, x :: l => uniqAux (if x ∈ r then r else r ++ [x]) l

/-- `_uniq(l)`: removes duplicates, preserving order of first occurrences. -/
def pyUniq (l : List Nat) : List Nat := uniqAux [] l

/-- `TaskUnit.report` (task.py lines 415-417):
`_uniq(self._walk_up()['needed_tasks'])`. -/
def reportT (g : Graph) (v : Nat) (w : World) : Except WalkErr (List Nat) :=
  (walkUp g false (g.n + 1) false ∅ v w).map (fun o => pyUniq o.res.needed)

/-- Reachability through `input_tasks` in one or more steps (the relation
whose cycles the `_syncing` guard detects). -/
inductive Reach (g : Graph) : Nat → Nat → Prop
  | single {a b : Nat} : b ∈ g.inputTasks a → Reach g a b
  | cons {a b c : Nat} : b ∈ g.inputTasks a → Reach g b c → Reach g a c

/-! ### Properties of `_uniq` -/

/-- The canonical first-occurrence deduplication, written the way the spec
describes `report()`'s list: keep each element at its first occurrence. -/
def firstOccDedup : List Nat → List Nat
  | [] => []
  | x :: l => x :: firstOccDedup (l.filter (fun y => y != x))
termination_by l => l.length
decreasing_by
  simp only [List.length_cons]
  exact Nat.lt_succ_of_le (List.length_filter_le _ l)

/-! ## Part 2: the locking and status-record protocol

The state of one working directory as seen by a single `TaskUnit` and its
owning `Tasker`: the status-record file, the set of lock marker files under
the lock subdirectory, whether that subdirectory exists, the process working
directory, and the node's in-process `_running` flag. -/

/-- Python exceptions distinguished by the embedded code paths. `userError`
stands for an arbitrary exception raised by user code (the task computation,
or input resolution via `_nestmap`/`_prepare_data`). -/
inductive PyErr where
  | lockError
  | valueError
  | typeError
  | keyError
  | attributeError (attr : String)
  | assertionError
  | userError (id : Nat)
  deriving DecidableEq, Repr

/-- A JSON value stored under a key of a status record.  The engine only ever
compares such a value with the string `working` (task.py line 581), so
composite values are collapsed into one marker. -/
inductive JsonVal where
  | jstr (s : String)
  | jnum (n : Int)
  | jbool (b : Bool)
  | jnull
  | jcomposite
  deriving DecidableEq, Repr

/-- A parsed JSON document: an object with its fields, or any non-object
document (array, string, number, boolean, null) — the engine indexes the
document with the string key `status`, which raises `TypeError` on every
non-object, whatever its content. -/
inductive JsonDoc where
  | jobj (fields : List (String × JsonVal))
  | jnonobj
  deriving DecidableEq, Repr

/-- Dictionary access on a parsed JSON object (`json.load` yields a dict, so
keys are unique and lookup order is immaterial). -/
def lookupKey (fields : List (String × JsonVal)) (k : String) : Option JsonVal :=
  (fields.find? (fun p => p.1 == k)).map (fun p => p.2)

/-- The mutable state of one working directory plus the in-process flags of
the node under consideration.  `statusFile = none` means the status-record
file is absent or unreadable (`IOError`), `some none` means it exists but is
not valid JSON (`ValueError`), `some (some d)` means it parses to `d`.
`lockDirIsDir` is `lfd.exists() and lfd.isdir()` for the lock subdirectory. -/
structure PState where
  statusFile : Option (Option JsonDoc)
  locks : Finset String
  lockDirIsDir : Bool
  cwd : String
  running : Bool
  deriving DecidableEq

/-- `_sanitize_filename` (task.py lines 43-49): keep alphanumerics, spaces
and underscores, then strip trailing whitespace (only spaces can remain after
the filter).  The empty result, which makes the source raise `ValueError`, is
handled at each use site.  Python's unicode-aware `isalpha`/`isdigit` are
embedded as the ASCII predicates; no claim depends on non-ASCII names. -/
def pySanitize (name : String) : String :=
  let kept := name.toList.filter (fun c => c.isAlpha || c.isDigit || c == ' ' || c == '_')
  String.mk (kept.reverse.dropWhile (fun c => c == ' ')).reverse

/-- The fixed data of one task node as needed by the protocol: its name, its
working directory, and `len(self.outs)` (the listified declared outputs). -/
structure NodeSpec where
  name : String
  dir : String
  numOuts : Nat
  deriving DecidableEq

/-- A status record as written through `Progress` (progress.py lines 102-112,
162-204, 239-251): the persistent `task` and `pid` fields plus the `status`
field.  The wall-clock fields `started` and `elapsed_time` are omitted; no
embedded code path reads them. -/
def statusRecord (taskName : String) (pid : Nat) (st : String) : JsonDoc :=
  .jobj [("task", .jstr taskName), ("pid", .jnum (Int.ofNat pid)), ("status", .jstr st)]

/-- `Tasker.is_working` (task.py lines 573-587).  `IOError` (absent or
unreadable file), `ValueError` (unparseable JSON, and also the
`_sanitize_filename` failure for a name with no valid characters) and
`KeyError` (no `status` field) are caught and yield `False`; the fall-through
when `status` is not `working` returns Python `None`, embedded as `false`
(it is only ever used as a truth value).  Indexing a parsed non-object
document raises `TypeError`, which the `except` clause does not catch. -/
def isWorkingT (s : PState) (task : Option String) : Except PyErr Bool :=
  match s.statusFile with
  | none => .ok false
  | some none => .ok false
  | some (some .jnonobj) => .error .typeError
  | some (some (.jobj fields)) =>
    match lookupKey fields "status" with
    | none => .ok false
    | some v =>
      if v = .jstr "working" then
        match task with
        | none => .ok true
        | some t =>
          if pySanitize t = "" then .ok false
          else .ok (decide (pySanitize t ∈ s.locks))
      else .ok false

/-- `TaskUnit.__exit__` (task.py lines 239-247): finalize the status record
as `ERROR` (when an exception is propagating) or `done`, clear the
`_running` flag, remove this task's lock file if it exists, and change back
to the saved working directory. -/
def pyExit (nd : NodeSpec) (pid : Nat) (isErr : Bool) (old : String) (s : PState) : PState :=
  { s with
    statusFile := some (some (statusRecord nd.name pid (if isErr then "ERROR" else "done"))),
    running := false,
    locks := s.locks.erase (pySanitize nd.name),
    cwd := old }

/-- `TaskUnit.__enter__` (task.py lines 203-237).  Order, as in the source:
compute the lock-file path (which raises `ValueError` for a name sanitizing
to nothing, line 207), check the in-process `_running` flag, check
`is_working` for this task name (both raising `LockException` with the state
untouched), then inside the `try`: set `_running`, change directory, create
the lock subdirectory and the lock marker, write the `working` status record,
and resolve the inputs (`insRes`; arbitrary user-visible failure).  Any
exception inside the `try` runs `__exit__` before propagating (line 236).
Plain file operations (mkdir/touch/status write) are assumed to succeed.
`enterState` is the state after the prologue of the `try` block: `_running`
set, directory changed, lock subdirectory created, lock marker present,
`working` status record written (task.py lines 217-223). -/
def enterState (nd : NodeSpec) (pid : Nat) (s : PState) : PState :=
  { s with
    running := true,
    cwd := nd.dir,
    lockDirIsDir := true,
    locks := insert (pySanitize nd.name) s.locks,
    statusFile := some (some (statusRecord nd.name pid "working")) }

def pyEnter (nd : NodeSpec) (pid : Nat) (insRes : Except PyErr Unit) (s : PState) :
    Except PyErr Unit × PState :=
  if pySanitize nd.name = "" then (.error .valueError, s)
  else if s.running then (.error .lockError, s)
  else
    match isWorkingT s (some nd.name) with
    | .error e => (.error e, s)
    | .ok true => (.error .lockError, s)
    | .ok false =>
      match insRes with
      | .error e => (.error e, pyExit nd pid true s.cwd (enterState nd pid s))
      | .ok u => (.ok u, enterState nd pid s)

/-- `TaskUnit.run` (task.py lines 362-392): enter the context (locking,
status, input resolution), call the user computation (`funcRes`, an arbitrary
result: the length of the returned sequence, or an exception), then the
output-count handling of lines 385-392.  With one declared output the value
is wrapped; with two or more and a mismatched count, the source tries to
raise `RuntimeError('Expected %i output values but got %i.' % (len(self.outs),
len(self.outdata)))` — but `self.outdata` is not an attribute (the local is
`outdata`), so evaluating the format arguments raises
`AttributeError('outdata')` instead.  Output saving (`FileBase.save`) is an
external collaborator assumed to succeed.  Every exit path runs `__exit__`. -/
def pyRunTask (nd : NodeSpec) (pid : Nat) (insRes : Except PyErr Unit)
    (funcRes : Except PyErr Nat) (s : PState) : Except PyErr Unit × PState :=
  match pyEnter nd pid insRes s with
  | (.error e, s2) => (.error e, s2)
  | (.ok _, s1) =>
    match funcRes with
    | .error e => (.error e, pyExit nd pid true s.cwd s1)
    | .ok k =>
      if nd.numOuts = 0 then (.ok (), pyExit nd pid false s.cwd s1)
      else if nd.numOuts = 1 then (.ok (), pyExit nd pid false s.cwd s1)
      else if k ≠ nd.numOuts then
        (.error (.attributeError "outdata"), pyExit nd pid true s.cwd s1)
      else (.ok (), pyExit nd pid false s.cwd s1)

/-- `TaskUnitNoStore.run` (task.py lines 433-435): `pass` — no lock, no
status write, no computation. -/
def pyRunNoStore (s : PState) : Except PyErr Unit × PState := (.ok (), s)

/-- The context-managed body of `TaskUnitNoStore.__call__` (task.py lines
437-459), after its initial `self.sync()`: enter the context, call the user
computation and return its value, finalizing status and lock via
`__exit__` on both paths.  `load` and `force` are aliases of `__call__`
(lines 459-460). -/
def pyCallNoStore (nd : NodeSpec) (pid : Nat) (insRes : Except PyErr Unit)
    (funcRes : Except PyErr Nat) (s : PState) : Except PyErr Nat × PState :=
  match pyEnter nd pid insRes s with
  | (.error e, s2) => (.error e, s2)
  | (.ok _, s1) =>
    match funcRes with
    | .error e => (.error e, pyExit nd pid true s.cwd s1)
    | .ok r => (.ok r, pyExit nd pid false s.cwd s1)

/-- First half of `Tasker.unlock` (task.py lines 595-597): delete the
status-record file if present. -/
def statusCleared (s : PState) : PState :=
  if s.statusFile ≠ none then { s with statusFile := none } else s

/-- `Tasker.unlock` (task.py lines 593-601): delete the status-record file if
present, then, if the lock subdirectory exists and is a directory, assert it
is not the working directory itself (`AssertionError` otherwise) and delete
it with all lock markers.  `sameAsWork` is `os.path.samefile(lfd, self.p)`. -/
def pyUnlock (sameAsWork : Bool) (s : PState) : Except PyErr PState :=
  if (statusCleared s).lockDirIsDir then
    if sameAsWork then .error .assertionError
    else .ok { statusCleared s with locks := ∅, lockDirIsDir := false }
  else .ok (statusCleared s)

def statusWorkingP (s : PState) : Prop :=
  ∃ fields, s.statusFile = some (some (.jobj fields)) ∧
    lookupKey fields "status" = some (.jstr "working")


/-! ### Concrete registries and directory states used as test inputs -/

/-- A single storing task: input file 0 (present), output file 1 (absent),
whose computation never writes its output (`eff` is the identity). -/
def g4a : Graph where
  n := 1
  kind := fun _ => .store
  inputFiles := fun v => match v with | 0 => [0] | _ => []
  outputFiles := fun v => match v with | 0 => [1] | _ => []
  inputTasks := fun _ => []
  eff := fun _ w => w

/-- Node 0 lies on the cycle 0 → 2 → 0, but its first upstream subtree is the
stale task 1 (as in `g4a`), which the traversal visits before reaching the
cycle. -/
def g4c : Graph where
  n := 3
  kind := fun _ => .store
  inputFiles := fun v => match v with | 1 => [0] | _ => []
  outputFiles := fun v => match v with | 1 => [1] | _ => []
  inputTasks := fun v => match v with | 0 => [1, 2] | 2 => [0] | _ => []
  eff := fun _ w => w

/-- A plain two-task cycle 0 → 1 → 0. -/
def g4w : Graph where
  n := 2
  kind := fun _ => .store
  inputFiles := fun _ => []
  outputFiles := fun _ => []
  inputTasks := fun v => match v with | 0 => [1] | 1 => [0] | _ => []
  eff := fun _ w => w

/-- Node 0 reads input files 0 (present, mtime 3 in `w5`) and 1 (absent in
`w5`), depends on task 1 (current: output file 2, mtime 4), and stores
output file 3 (mtime 10). -/
def g5 : Graph where
  n := 2
  kind := fun _ => .store
  inputFiles := fun v => match v with | 0 => [0, 1] | _ => []
  outputFiles := fun v => match v with | 0 => [3] | 1 => [2] | _ => []
  inputTasks := fun v => match v with | 0 => [1] | _ => []
  eff := fun _ w => w

def w5 : World := [(0, 3), (2, 4), (3, 10)]

/-- A single storing task whose output file 1 is initially absent and whose
computation writes it with mtime 5 — exactly equal to the newest dependency
(input file 0, mtime 5). -/
def g6 : Graph where
  n := 1
  kind := fun _ => .store
  inputFiles := fun v => match v with | 0 => [0] | _ => []
  outputFiles := fun v => match v with | 0 => [1] | _ => []
  inputTasks := fun _ => []
  eff := fun v w => match v with | 0 => w ++ [(1, 5)] | _ => w

/-- Same shape as `g4a`, kept separate for the stale-output-check claim. -/
def gC6w : Graph where
  n := 1
  kind := fun _ => .store
  inputFiles := fun v => match v with | 0 => [0] | _ => []
  outputFiles := fun v => match v with | 0 => [1] | _ => []
  inputTasks := fun _ => []
  eff := fun _ w => w

/-- A diamond: 0 depends on 1 and 2, both of which depend on 3; task 3 is
stale (its output file 3 is absent in `wD`), every other output is present
with mtime 5. -/
def gD : Graph where
  n := 4
  kind := fun _ => .store
  inputFiles := fun _ => []
  outputFiles := fun v => match v with | 0 => [0] | 1 => [1] | 2 => [2] | 3 => [3] | _ => []
  inputTasks := fun v => match v with | 0 => [1, 2] | 1 => [3] | 2 => [3] | _ => []
  eff := fun _ w => w

def wD : World := [(0, 5), (1, 5), (2, 5)]

/-- A non-storing task 0 depending on a stale storing task 1 (output file 0
absent; its computation writes it with mtime 5). -/
def gC10 : Graph where
  n := 2
  kind := fun v => match v with | 0 => .noStore | _ => .store
  inputFiles := fun _ => []
  outputFiles := fun v => match v with | 1 => [0] | _ => []
  inputTasks := fun v => match v with | 0 => [1] | _ => []
  eff := fun v w => match v with | 1 => w ++ [(0, 5)] | _ => w

/-! ### General lemmas about the walker and the protocol -/


theorem walkUp_succ (g : Graph) (run : Bool) (fuel : Nat) (force : Bool)
    (S : Finset Nat) (v : Nat) (w : World) :
    walkUp g run (fuel + 1) force S v w =
      if v ∈ S then .error (.cyclic v)
      else walkFrame g run force v (walkChildren g run fuel (insert v S) (g.inputTasks v) w) :=
  rfl

theorem mem_uniqAux {x : Nat} : ∀ {l r : List Nat}, x ∈ uniqAux r l ↔ x ∈ r ∨ x ∈ l := by
  intro l
  induction l with
  | nil => intro r; simp [uniqAux]
  | cons y l ih =>
    intro r
    simp only [uniqAux]
    by_cases h : y ∈ r
    · rw [if_pos h, ih]
      constructor
      · rintro (hx | hx)
        · exact Or.inl hx
        · exact Or.inr (List.mem_cons_of_mem _ hx)
      · rintro (hx | hx)
        · exact Or.inl hx
        · rcases List.mem_cons.mp hx with rfl | hx
          · exact Or.inl h
          · exact Or.inr hx
    · rw [if_neg h, ih]
      simp [List.mem_append, List.mem_cons, or_assoc]
theorem nodup_uniqAux : ∀ {l r : List Nat}, r.Nodup → (uniqAux r l).Nodup := by
  intro l
  induction l with
  | nil => intro r hr; exact hr
  | cons y l ih =>
    intro r hr
    simp only [uniqAux]
    by_cases h : y ∈ r
    · rw [if_pos h]; exact ih hr
    · rw [if_neg h]
      refine ih (List.Nodup.append hr (List.nodup_singleton y) ?_)
      intro a ha hb
      rcases List.mem_singleton.mp hb with rfl
      exact h ha

theorem firstOccDedup_cons (x : Nat) (l : List Nat) :
    firstOccDedup (x :: l) = x :: firstOccDedup (l.filter (fun y => y != x)) := by
  rw [firstOccDedup.eq_def]

theorem uniqAux_spec : ∀ (l r : List Nat),
    uniqAux r l = r ++ firstOccDedup (l.filter (fun y => decide (y ∉ r))) := by
  intro l
  induction l with
  | nil => intro r; simp [uniqAux, firstOccDedup]
  | cons x l ih =>
    intro r
    simp only [uniqAux]
    by_cases h : x ∈ r
    · rw [if_pos h, ih]
      simp [List.filter_cons, h]
    · rw [if_neg h, ih]
      have hfx : (decide (x ∉ r)) = true := by simp [h]
      simp only [List.filter_cons, hfx, if_pos]
      rw [firstOccDedup_cons]
      have hfilter : l.filter (fun y => decide (y ∉ r ++ [x])) =
          (l.filter (fun y => decide (y ∉ r))).filter (fun y => y != x) := by
        rw [List.filter_filter]
        apply List.filter_congr
        intro a _
        by_cases hax : a = x
        · subst hax; simp
        · by_cases har : a ∈ r <;> simp [List.mem_append, har, hax, bne_iff_ne]
      rw [hfilter]
      simp

theorem pyUniq_eq_firstOccDedup (l : List Nat) : pyUniq l = firstOccDedup l := by
  have h := uniqAux_spec l []
  simp only [pyUniq, h, List.nil_append]
  congr 1
  apply List.filter_eq_self.mpr
  intro a _
  simp

theorem pyUniq_nodup (l : List Nat) : (pyUniq l).Nodup := nodup_uniqAux List.nodup_nil

theorem mem_pyUniq {x : Nat} {l : List Nat} : x ∈ pyUniq l ↔ x ∈ l := by
  rw [pyUniq, mem_uniqAux]
  simp

theorem pyUniq_toFinset (l : List Nat) : (pyUniq l).toFinset = l.toFinset := by
  ext a
  simp [List.mem_toFinset, mem_pyUniq]

/-! ### Generic lemmas about `walkList` -/

theorem walkList_ok_mem {f : Nat → World → Except WalkErr WalkOut} :
    ∀ {ts : List Nat} {w : World} {out4},
    walkList f ts w = .ok out4 → ∀ t ∈ ts, ∃ w0 o, f t w0 = .ok o := by
  intro ts
  induction ts with
  | nil => intro w out4 _ t ht; cases ht
  | cons a ts ih =>
    intro w out4 h t ht
    simp only [walkList] at h
    split at h
    · cases h
    · next o ho =>
      split at h
      · cases h
      · next rs wr ranr warnr hrest =>
        rcases List.mem_cons.mp ht with rfl | ht2
        · exact ⟨w, o, ho⟩
        · exact ih hrest t ht2

theorem walkList_error {f : Nat → World → Except WalkErr WalkOut} :
    ∀ {ts : List Nat} {w : World} {e},
    walkList f ts w = .error e → ∃ t ∈ ts, ∃ w0, f t w0 = .error e := by
  intro ts
  induction ts with
  | nil => intro w e h; cases h
  | cons a ts ih =>
    intro w e h
    simp only [walkList] at h
    split at h
    · next e0 he0 =>
      cases h
      exact ⟨a, List.mem_cons_self a ts, w, he0⟩
    · next o ho =>
      split at h
      · next e0 hrest =>
        cases h
        obtain ⟨t, ht, w0, hw0⟩ := ih hrest
        exact ⟨t, List.mem_cons_of_mem _ ht, w0, hw0⟩
      · next rs wr ranr warnr hrest => cases h

theorem walkList_pure {f : Nat → World → Except WalkErr WalkOut}
    (hf : ∀ t w0 o, f t w0 = .ok o → o.world = w0 ∧ o.ran = [] ∧ o.warns = []) :
    ∀ {ts : List Nat} {w : World} {rs wr ranr warnr},
    walkList f ts w = .ok (rs, wr, ranr, warnr) →
    wr = w ∧ ranr = [] ∧ warnr = [] := by
  intro ts
  induction ts with
  | nil =>
    intro w rs wr ranr warnr h
    simp only [walkList] at h
    cases h
    exact ⟨rfl, rfl, rfl⟩
  | cons a ts ih =>
    intro w rs wr ranr warnr h
    simp only [walkList] at h
    split at h
    · cases h
    · next o ho =>
      split at h
      · cases h
      · next rs2 wr2 ranr2 warnr2 hrest =>
        cases h
        obtain ⟨hw, hran, hwarn⟩ := hf a w o ho
        rw [hw] at hrest
        obtain ⟨hw2, hran2, hwarn2⟩ := ih hrest
        exact ⟨hw2, by rw [hran, hran2]; rfl, by rw [hwarn, hwarn2]; rfl⟩

theorem walkList_allcur {f : Nat → World → Except WalkErr WalkOut}
    (hf : ∀ t w0 o, f t w0 = .ok o → o.res.all_current = true →
          o.world = w0 ∧ o.ran = [] ∧ o.warns = [] ∧ o.res.needed = []) :
    ∀ {ts : List Nat} {w : World} {rs wr ranr warnr},
    walkList f ts w = .ok (rs, wr, ranr, warnr) →
    (∀ r ∈ rs, r.all_current = true) →
    wr = w ∧ ranr = [] ∧ warnr = [] ∧ ∀ r ∈ rs, r.needed = [] := by
  intro ts
  induction ts with
  | nil =>
    intro w rs wr ranr warnr h _
    simp only [walkList] at h
    cases h
    exact ⟨rfl, rfl, rfl, by intro r hr; cases hr⟩
  | cons a ts ih =>
    intro w rs wr ranr warnr h hcur
    simp only [walkList] at h
    split at h
    · cases h
    · next o ho =>
      split at h
      · cases h
      · next rs2 wr2 ranr2 warnr2 hrest =>
        cases h
        have hco : o.res.all_current = true := hcur o.res (List.mem_cons_self _ _)
        obtain ⟨hw, hran, hwarn, hneed⟩ := hf a w o ho hco
        rw [hw] at hrest
        obtain ⟨hw2, hran2, hwarn2, hneed2⟩ := ih hrest
          (fun r hr => hcur r (List.mem_cons_of_mem _ hr))
        refine ⟨hw2, ?_, ?_, ?_⟩
        · rw [hran, hran2]; rfl
        · rw [hwarn, hwarn2]; rfl
        · intro r hr
          rcases List.mem_cons.mp hr with rfl | hr2
          · exact hneed
          · exact hneed2 r hr2

/-! ### Lemmas about one `walkFrame` -/

theorem walkFrame_error {g : Graph} {run force : Bool} {v : Nat} {children e}
    (h : walkFrame g run force v children = .error e) :
    children = .error e ∨ e = .failedUpdate v := by
  match children with
  | .error e0 =>
    simp only [walkFrame] at h
    cases h
    exact Or.inl rfl
  | .ok (ups, w1, ran1, warns1) =>
    right
    simp only [walkFrame] at h
    split at h
    · split at h
      · split at h
        · split at h
          · cases h; rfl
          · cases h
        · cases h
      · cases h
    · split at h
      · cases h
      · cases h

theorem walkFrame_false_error {g : Graph} {force : Bool} {v : Nat} {children e}
    (h : walkFrame g false force v children = .error e) : children = .error e := by
  match children with
  | .error e0 =>
    simp only [walkFrame] at h
    cases h
    rfl
  | .ok (ups, w1, ran1, warns1) =>
    exfalso
    simp only [walkFrame] at h
    split at h
    · cases h
    · split at h
      · cases h
      · cases h

theorem walkFrame_ok_children {g : Graph} {run force : Bool} {v : Nat} {children o}
    (h : walkFrame g run force v children = .ok o) :
    ∃ cres, children = .ok cres := by
  match children with
  | .error e0 => simp only [walkFrame] at h; cases h
  | .ok cres => exact ⟨cres, rfl⟩

theorem walkFrame_false_ok {g : Graph} {force : Bool} {v : Nat} {ups w1 ran1 warns1 o}
    (h : walkFrame g false force v (.ok (ups, w1, ran1, warns1)) = .ok o) :
    o.world = w1 ∧ o.ran = ran1 ∧ o.warns = warns1 := by
  simp only [walkFrame] at h
  split at h
  · cases h; exact ⟨rfl, rfl, rfl⟩
  · split at h
    · cases h; exact ⟨rfl, rfl, rfl⟩
    · cases h; exact ⟨rfl, rfl, rfl⟩

theorem walkFrame_allcur {g : Graph} {run force : Bool} {v : Nat} {ups w1 ran1 warns1 o}
    (h : walkFrame g run force v (.ok (ups, w1, ran1, warns1)) = .ok o)
    (hcur : o.res.all_current = true) :
    o.world = w1 ∧ o.ran = ran1 ∧ o.warns = warns1 ∧
    o.res.needed = (ups.map (fun r => r.needed)).flatten ∧
    ∀ r ∈ ups, r.all_current = true := by
  simp only [walkFrame] at h
  split at h
  · exfalso
    split at h
    · split at h
      · split at h
        · cases h
        · cases h; cases hcur
      · cases h; cases hcur
    · cases h; cases hcur
  · next hsr =>
    have hall : ups.all (fun r => r.all_current) = true := by
      split at h <;> (cases h; exact hcur)
    have hmem : ∀ r ∈ ups, r.all_current = true := by
      intro r hr
      exact List.all_eq_true.mp hall r hr
    split at h <;> (cases h; exact ⟨rfl, rfl, rfl, rfl, hmem⟩)

/-! ### Main lemmas about `walkUp` -/

theorem walkUp_ok_guard {g : Graph} {run : Bool} {fuel : Nat} {force S v w o}
    (h : walkUp g run fuel force S v w = .ok o) :
    v ∉ S ∧ ∃ fuel2, fuel = fuel2 + 1 := by
  match fuel with
  | 0 => cases h
  | fuel2 + 1 =>
    rw [walkUp_succ] at h
    by_cases hv : v ∈ S
    · rw [if_pos hv] at h; cases h
    · exact ⟨hv, fuel2, rfl⟩

theorem walkUp_ok_reach_notin {g : Graph} {run : Bool} :
    ∀ (fuel : Nat) {force S v w o},
    walkUp g run fuel force S v w = .ok o →
    ∀ u, Reach g v u → u ∉ insert v S := by
  intro fuel
  induction fuel with
  | zero => intro force S v w o h; cases h
  | succ fuel ih =>
    intro force S v w o h u hr
    rw [walkUp_succ] at h
    by_cases hv : v ∈ S
    · rw [if_pos hv] at h; cases h
    · rw [if_neg hv] at h
      obtain ⟨cres, hc⟩ := walkFrame_ok_children h
      cases hr with
      | single hb =>
        obtain ⟨w0, o2, ho2⟩ := walkList_ok_mem hc u hb
        exact (walkUp_ok_guard ho2).1
      | cons hb hbc =>
        rename_i b
        obtain ⟨w0, o2, ho2⟩ := walkList_ok_mem hc b hb
        intro hu
        exact ih ho2 u hbc (Finset.mem_insert_of_mem hu)

theorem walkUp_cyclic_inv {g : Graph} {run : Bool} :
    ∀ (fuel : Nat) {force S v w t},
    walkUp g run fuel force S v w = .error (.cyclic t) →
    (t = v ∨ Reach g v t) ∧ (t ∈ S ∨ Reach g t t) := by
  intro fuel
  induction fuel with
  | zero => intro force S v w t h; cases h
  | succ fuel ih =>
    intro force S v w t h
    rw [walkUp_succ] at h
    by_cases hv : v ∈ S
    · rw [if_pos hv] at h
      cases h
      exact ⟨Or.inl rfl, Or.inl hv⟩
    · rw [if_neg hv] at h
      rcases walkFrame_error h with hc | habs
      · obtain ⟨b, hb, w0, hw0⟩ := walkList_error hc
        obtain ⟨hleft, hright⟩ := ih hw0
        have hvt : Reach g v t := by
          rcases hleft with rfl | hbt
          · exact Reach.single hb
          · exact Reach.cons hb hbt
        refine ⟨Or.inr hvt, ?_⟩
        rcases hright with hmem | hloop
        · rcases Finset.mem_insert.mp hmem with rfl | hS
          · exact Or.inr hvt
          · exact Or.inl hS
        · exact Or.inr hloop
      · cases habs

theorem walkUp_no_fuelOut {g : Graph} (hwf : g.wfG) {run : Bool} :
    ∀ (fuel : Nat) {force : Bool} (S : Finset Nat) (v : Nat) (w : World),
    v < g.n → (∀ u ∈ S, u < g.n) → g.n - S.card < fuel →
    walkUp g run fuel force S v w ≠ .error .fuelOut := by
  intro fuel
  induction fuel with
  | zero =>
    intro force S v w _ _ hbound
    exact absurd hbound (Nat.not_lt_zero _)
  | succ fuel ih =>
    intro force S v w hv hS hbound h
    rw [walkUp_succ] at h
    by_cases hvS : v ∈ S
    · rw [if_pos hvS] at h; cases h
    · rw [if_neg hvS] at h
      rcases walkFrame_error h with hc | habs
      · obtain ⟨b, hb, w0, hw0⟩ := walkList_error hc
        have hsub : insert v S ⊆ Finset.range g.n := by
          intro u hu
          rcases Finset.mem_insert.mp hu with rfl | hu
          · exact Finset.mem_range.mpr hv
          · exact Finset.mem_range.mpr (hS u hu)
        have hcard : S.card + 1 ≤ g.n := by
          have := Finset.card_le_card hsub
          rwa [Finset.card_insert_of_not_mem hvS, Finset.card_range] at this
        have hbound2 : g.n - (insert v S).card < fuel := by
          rw [Finset.card_insert_of_not_mem hvS]
          have h1 : g.n - (S.card + 1) < g.n - S.card := by
            have hlt : S.card < g.n := hcard
            omega
          have h2 : g.n - S.card ≤ fuel := Nat.lt_succ_iff.mp hbound
          omega
        exact ih (insert v S) b w0 (hwf v hv b hb)
          (fun u hu => by
            rcases Finset.mem_insert.mp hu with rfl | hu
            · exact hv
            · exact hS u hu)
          hbound2 hw0
      · cases habs

theorem walkUp_false_pure {g : Graph} :
    ∀ (fuel : Nat) {force S v w o},
    walkUp g false fuel force S v w = .ok o →
    o.world = w ∧ o.ran = [] ∧ o.warns = [] := by
  intro fuel
  induction fuel with
  | zero => intro force S v w o h; cases h
  | succ fuel ih =>
    intro force S v w o h
    rw [walkUp_succ] at h
    by_cases hv : v ∈ S
    · rw [if_pos hv] at h; cases h
    · rw [if_neg hv] at h
      obtain ⟨⟨ups, w1, ran1, warns1⟩, hc⟩ := walkFrame_ok_children h
      rw [hc] at h
      obtain ⟨hw, hran, hwarn⟩ := walkFrame_false_ok h
      obtain ⟨hw1, hran1, hwarn1⟩ :=
        walkList_pure (fun t w0 o2 ho2 => ih ho2) hc
      exact ⟨by rw [hw, hw1], by rw [hran, hran1], by rw [hwarn, hwarn1]⟩

theorem walkUp_false_no_failedUpdate {g : Graph} :
    ∀ (fuel : Nat) {force S v w t},
    walkUp g false fuel force S v w ≠ .error (.failedUpdate t) := by
  intro fuel
  induction fuel with
  | zero => intro force S v w t h; cases h
  | succ fuel ih =>
    intro force S v w t h
    rw [walkUp_succ] at h
    by_cases hv : v ∈ S
    · rw [if_pos hv] at h; cases h
    · rw [if_neg hv] at h
      have hc := walkFrame_false_error h
      obtain ⟨b, hb, w0, hw0⟩ := walkList_error hc
      exact ih hw0

theorem walkUp_allcur {g : Graph} {run : Bool} :
    ∀ (fuel : Nat) {force S v w o},
    walkUp g run fuel force S v w = .ok o →
    o.res.all_current = true →
    o.world = w ∧ o.ran = [] ∧ o.warns = [] ∧ o.res.needed = [] := by
  intro fuel
  induction fuel with
  | zero => intro force S v w o h; cases h
  | succ fuel ih =>
    intro force S v w o h hcur
    rw [walkUp_succ] at h
    by_cases hv : v ∈ S
    · rw [if_pos hv] at h; cases h
    · rw [if_neg hv] at h
      obtain ⟨⟨ups, w1, ran1, warns1⟩, hc⟩ := walkFrame_ok_children h
      rw [hc] at h
      obtain ⟨hw, hran, hwarn, hneed, hups⟩ := walkFrame_allcur h hcur
      obtain ⟨hw1, hran1, hwarn1, hneed1⟩ :=
        walkList_allcur (fun t w0 o2 ho2 hc2 => ih ho2 hc2) hc hups
      refine ⟨by rw [hw, hw1], by rw [hran, hran1], by rw [hwarn, hwarn1], ?_⟩
      rw [hneed, List.flatten_eq_nil_iff]
      intro l hl
      obtain ⟨r, hr, rfl⟩ := List.mem_map.mp hl
      exact hneed1 r hr

theorem runDispatch_ran_store {g : Graph} {v : Nat} {w : World} :
    ∀ t ∈ (runDispatch g v w).2, g.kind t = .store := by
  intro t ht
  cases hk : g.kind v with
  | store =>
    simp only [runDispatch, hk, List.mem_singleton] at ht
    subst ht
    exact hk
  | noStore => simp [runDispatch, hk] at ht

theorem walkList_ran {f : Nat → World → Except WalkErr WalkOut} {P : Nat → Prop}
    (hf : ∀ t w0 o, f t w0 = .ok o → ∀ x ∈ o.ran, P x) :
    ∀ {ts : List Nat} {w : World} {rs wr ranr warnr},
    walkList f ts w = .ok (rs, wr, ranr, warnr) → ∀ x ∈ ranr, P x := by
  intro ts
  induction ts with
  | nil =>
    intro w rs wr ranr warnr h x hx
    simp only [walkList] at h
    cases h
    cases hx
  | cons a ts ih =>
    intro w rs wr ranr warnr h x hx
    simp only [walkList] at h
    split at h
    · cases h
    · next o ho =>
      split at h
      · cases h
      · next rs2 wr2 ranr2 warnr2 hrest =>
        cases h
        rcases List.mem_append.mp hx with h1 | h2
        · exact hf a w o ho x h1
        · exact ih hrest x h2

theorem walkFrame_ran {g : Graph} {run force : Bool} {v : Nat} {ups w1 ran1 warns1 o}
    (h : walkFrame g run force v (.ok (ups, w1, ran1, warns1)) = .ok o) :
    o.ran = ran1 ∨ o.ran = ran1 ++ (runDispatch g v w1).2 := by
  simp only [walkFrame] at h
  split at h
  · split at h
    · split at h
      · split at h
        · cases h
        · cases h; exact Or.inr rfl
      · cases h; exact Or.inr rfl
    · cases h; exact Or.inl rfl
  · split at h
    · cases h; exact Or.inl rfl
    · cases h; exact Or.inl rfl

theorem walkUp_ran_store {g : Graph} {run : Bool} :
    ∀ (fuel : Nat) {force S v w out},
    walkUp g run fuel force S v w = .ok out → ∀ t ∈ out.ran, g.kind t = .store := by
  intro fuel
  induction fuel with
  | zero => intro force S v w out h; cases h
  | succ fuel ih =>
    intro force S v w out h t ht
    rw [walkUp_succ] at h
    by_cases hv : v ∈ S
    · rw [if_pos hv] at h; cases h
    · rw [if_neg hv] at h
      obtain ⟨⟨ups, w1, ran1, warns1⟩, hc⟩ := walkFrame_ok_children h
      rw [hc] at h
      have hran1 : ∀ x ∈ ran1, g.kind x = .store :=
        walkList_ran (fun t2 w0 o ho => ih ho) hc
      rcases walkFrame_ran h with hr | hr
      · exact hran1 t (hr ▸ ht)
      · rw [hr] at ht
        rcases List.mem_append.mp ht with h1 | h2
        · exact hran1 t h1
        · exact runDispatch_ran_store t h2

theorem foldl_max_le {m : Int} :
    ∀ (xs : List Int) (x : Int), xs.foldl max x ≤ m ↔ x ≤ m ∧ ∀ y ∈ xs, y ≤ m := by
  intro xs
  induction xs with
  | nil => intro x; simp
  | cons y xs ih =>
    intro x
    simp only [List.foldl_cons]
    rw [ih]
    constructor
    · rintro ⟨hxy, hall⟩
      rcases max_le_iff.mp hxy with ⟨hx, hy⟩
      refine ⟨hx, fun z hz => ?_⟩
      rcases List.mem_cons.mp hz with rfl | hz
      · exact hy
      · exact hall z hz
    · rintro ⟨hx, hall⟩
      exact ⟨max_le_iff.mpr ⟨hx, hall y (List.mem_cons_self _ _)⟩,
        fun z hz => hall z (List.mem_cons_of_mem _ hz)⟩

theorem pyMax_le {l : List Int} {m : Int} (h : ∀ y ∈ l, y ≤ m) (hm : -1 ≤ m) :
    pyMax l ≤ m := by
  cases l with
  | nil => simpa [pyMax] using hm
  | cons x xs =>
    simp only [pyMax]
    exact (foldl_max_le xs x).mpr
      ⟨h x (List.mem_cons_self _ _), fun y hy => h y (List.mem_cons_of_mem _ hy)⟩

/-- When every user computation leaves the file system unchanged, one frame of
the walk yields the same result dictionary whether or not reruns are enabled
(provided neither raises). -/
theorem walkFrame_effid_res {g : Graph} {force : Bool} {v : Nat} {ups w ran1 warns1 ran0 warns0 o1 o0}
    (heffv : g.eff v w = w)
    (h1 : walkFrame g true force v (.ok (ups, w, ran1, warns1)) = .ok o1)
    (h0 : walkFrame g false force v (.ok (ups, w, ran0, warns0)) = .ok o0) :
    o1.res = o0.res ∧ o1.world = w ∧ o0.world = w := by
  have hrd1 : (runDispatch g v w).1 = w := by
    simp only [runDispatch]
    cases g.kind v <;> simp [heffv]
  simp only [walkFrame, reduceIte] at h1 h0
  rw [hrd1] at h1
  split at h1
  · next hsr =>
    rw [if_pos hsr] at h0
    cases h0
    split at h1
    · next m2 hm2 =>
      split at h1
      · cases h1
      · cases h1
        refine ⟨?_, rfl, rfl⟩
        simp [resMtime, hm2]
    · next hm2 =>
      cases h1
      refine ⟨?_, rfl, rfl⟩
      simp [resMtime, hm2]
  · next hsr =>
    rw [if_neg hsr] at h0
    split at h1
    · next helif =>
      rw [if_pos helif] at h0
      cases h1
      cases h0
      exact ⟨rfl, rfl, rfl⟩
    · next helif =>
      rw [if_neg helif] at h0
      cases h1
      cases h0
      exact ⟨rfl, rfl, rfl⟩

/-- Pairing of the children walks of one frame in the two modes, when every
user computation leaves the file system unchanged. -/
theorem walkList_effid_pair {g : Graph} {fuel : Nat} {S : Finset Nat}
    (hE : ∀ {S2 : Finset Nat} {v w o1 o0}, walkUp g true fuel false S2 v w = .ok o1 →
          walkUp g false fuel false S2 v w = .ok o0 →
          o1.res = o0.res ∧ o1.world = w ∧ o0.world = w) :
    ∀ {ts : List Nat} {w : World} {r1 r0},
    walkChildren g true fuel S ts w = .ok r1 →
    walkChildren g false fuel S ts w = .ok r0 →
    r1.1 = r0.1 ∧ r1.2.1 = w ∧ r0.2.1 = w := by
  intro ts
  induction ts with
  | nil =>
    intro w r1 r0 h1 h0
    simp only [walkChildren, walkList] at h1 h0
    cases h1
    cases h0
    exact ⟨rfl, rfl, rfl⟩
  | cons a ts ih =>
    intro w r1 r0 h1 h0
    simp only [walkChildren, walkList] at h1 h0
    split at h1
    · cases h1
    · next o1 ho1 =>
      split at h1
      · cases h1
      · next rs1 wr1 ranr1 warnr1 hrest1 =>
        cases h1
        split at h0
        · cases h0
        · next o0 ho0 =>
          split at h0
          · cases h0
          · next rs0 wr0 ranr0 warnr0 hrest0 =>
            cases h0
            obtain ⟨hres, hw1, hw0⟩ := hE ho1 ho0
            rw [hw1] at hrest1
            rw [hw0] at hrest0
            obtain ⟨htl, hwr1, hwr0⟩ := ih hrest1 hrest0
            refine ⟨?_, hwr1, hwr0⟩
            simp only at htl ⊢
            rw [hres, htl]

/-- When every user computation leaves the file system unchanged, the walk
with reruns enabled computes the same result dictionary as the walk with
reruns disabled (whenever both return). -/
theorem walkUp_effid {g : Graph} (heff : ∀ t w, g.eff t w = w) :
    ∀ (fuel : Nat) {force : Bool} {S : Finset Nat} {v w o1 o0},
    walkUp g true fuel force S v w = .ok o1 →
    walkUp g false fuel force S v w = .ok o0 →
    o1.res = o0.res ∧ o1.world = w ∧ o0.world = w := by
  intro fuel
  induction fuel with
  | zero => intro force S v w o1 o0 h1; cases h1
  | succ fuel ih =>
    intro force S v w o1 o0 h1 h0
    rw [walkUp_succ] at h1 h0
    by_cases hv : v ∈ S
    · rw [if_pos hv] at h1; cases h1
    · rw [if_neg hv] at h1 h0
      obtain ⟨⟨ups1, w1, ran1, warns1⟩, hc1⟩ := walkFrame_ok_children h1
      obtain ⟨⟨ups0, w0c, ran0, warns0⟩, hc0⟩ := walkFrame_ok_children h0
      obtain ⟨hres, hw1, hw0⟩ :=
        walkList_effid_pair (fun ha hb => ih ha hb) hc1 hc0
      simp only at hres hw1 hw0
      rw [hres, hw1] at hc1
      rw [hw0] at hc0
      rw [hc1] at h1
      rw [hc0] at h0
      exact walkFrame_effid_res (heff v w) h1 h0


theorem pyEnter_clean {nd : NodeSpec} {pid : Nat} {insRes : Except PyErr Unit} {s : PState}
    (hname : pySanitize nd.name ≠ "") (hrun : s.running = false)
    (hw : isWorkingT s (some nd.name) = .ok false) :
    pyEnter nd pid insRes s =
      match insRes with
      | .error e => (.error e, pyExit nd pid true s.cwd (enterState nd pid s))
      | .ok u => (.ok u, enterState nd pid s) := by
  unfold pyEnter
  rw [if_neg hname, if_neg (by simp [hrun]), hw]

theorem pyEnter_ok_inv {nd : NodeSpec} {pid : Nat} {insRes : Except PyErr Unit}
    {s : PState} {u : Unit} {s1 : PState}
    (h : pyEnter nd pid insRes s = (.ok u, s1)) :
    s1 = enterState nd pid s ∧ insRes = .ok u := by
  unfold pyEnter at h
  split at h
  · simp at h
  · split at h
    · simp at h
    · split at h
      · simp at h
      · simp at h
      · split at h
        · simp at h
        · next u2 =>
          rw [Prod.mk.injEq] at h
          obtain ⟨hu, hs⟩ := h
          cases hu
          exact ⟨hs.symm, rfl⟩

theorem pyRunTask_clean {nd : NodeSpec} {pid : Nat} {insRes : Except PyErr Unit}
    {funcRes : Except PyErr Nat} {s : PState}
    (hname : pySanitize nd.name ≠ "") (hrun : s.running = false)
    (hw : isWorkingT s (some nd.name) = .ok false) :
    pyRunTask nd pid insRes funcRes s =
      match insRes with
      | .error e => (.error e, pyExit nd pid true s.cwd (enterState nd pid s))
      | .ok _ =>
        match funcRes with
        | .error e => (.error e, pyExit nd pid true s.cwd (enterState nd pid s))
        | .ok k =>
          if nd.numOuts = 0 then (.ok (), pyExit nd pid false s.cwd (enterState nd pid s))
          else if nd.numOuts = 1 then (.ok (), pyExit nd pid false s.cwd (enterState nd pid s))
          else if k ≠ nd.numOuts then
            (.error (.attributeError "outdata"), pyExit nd pid true s.cwd (enterState nd pid s))
          else (.ok (), pyExit nd pid false s.cwd (enterState nd pid s)) := by
  unfold pyRunTask
  rw [pyEnter_clean hname hrun hw]
  rcases insRes with e | u
  · rfl
  · rfl

/-! ### The claims about the protocol -/

/-- C1: on a task with at least two declared outputs whose computation
returns a sequence of a different length, `run()` is supposed to raise the
count-mismatch `RuntimeError` of task.py line 389, but building its message
evaluates `len(self.outdata)` (line 390) — `outdata` is a local variable,
not an attribute — so an `AttributeError` for `outdata` propagates instead.
The Status Record is still finalized as `ERROR` (the exception passes
through `__exit__`).  This theorem evaluates the code at the failing input
class: the count-mismatch path raises the attribute error, not a
count-naming runtime error. -/
theorem count_mismatch_raises_attributeError
    (nd : NodeSpec) (pid : Nat) (k : Nat) (s : PState)
    (hname : pySanitize nd.name ≠ "") (hrun : s.running = false)
    (hw : isWorkingT s (some nd.name) = .ok false)
    (houts : 2 ≤ nd.numOuts) (hk : k ≠ nd.numOuts) :
    (pyRunTask nd pid (.ok ()) (.ok k) s).1 = .error (.attributeError "outdata") ∧
    (pyRunTask nd pid (.ok ()) (.ok k) s).2.statusFile =
      some (some (statusRecord nd.name pid "ERROR")) := by
  rw [pyRunTask_clean hname hrun hw]
  have h0 : nd.numOuts ≠ 0 := by omega
  have h1 : nd.numOuts ≠ 1 := by omega
  simp only [if_neg h0, if_neg h1, if_pos hk]
  refine ⟨?_, ?_⟩ <;> trivial

theorem count_mismatch_raises_attributeError_witness :
    (pySanitize "taskB" ≠ "" ∧
      (⟨none, ∅, false, "home", false⟩ : PState).running = false ∧
      isWorkingT ⟨none, ∅, false, "home", false⟩ (some "taskB") = .ok false ∧
      2 ≤ (⟨"taskB", "dirB", 2⟩ : NodeSpec).numOuts ∧ 1 ≠ (⟨"taskB", "dirB", 2⟩ : NodeSpec).numOuts) ∧
    ((pyRunTask ⟨"taskB", "dirB", 2⟩ 3 (.ok ()) (.ok 1) ⟨none, ∅, false, "home", false⟩).1 =
        .error (.attributeError "outdata") ∧
      (pyRunTask ⟨"taskB", "dirB", 2⟩ 3 (.ok ()) (.ok 1) ⟨none, ∅, false, "home", false⟩).2.statusFile =
        some (some (statusRecord "taskB" 3 "ERROR"))) :=
  ⟨⟨by decide, rfl, rfl, by decide, by decide⟩,
    count_mismatch_raises_attributeError ⟨"taskB", "dirB", 2⟩ 3 1 ⟨none, ∅, false, "home", false⟩
      (by decide) rfl rfl (by decide) (by decide)⟩

/-- C2: once the lock-acquisition checks of `__enter__` have passed, every
exit of `run()` — an exception during input resolution, an exception from
the user computation, the output-count failure, or success — goes through
`__exit__`: the Status Record is finalized (`ERROR` on any exception,
`done` on success), this task's lock marker is removed, the `_running`
flag is cleared and the process working directory is restored. -/
theorem run_always_finalizes_status_and_releases_lock
    (nd : NodeSpec) (pid : Nat) (insRes : Except PyErr Unit) (funcRes : Except PyErr Nat)
    (s : PState)
    (hname : pySanitize nd.name ≠ "") (hrun : s.running = false)
    (hw : isWorkingT s (some nd.name) = .ok false) :
    (pyRunTask nd pid insRes funcRes s).2.running = false ∧
    (pyRunTask nd pid insRes funcRes s).2.cwd = s.cwd ∧
    pySanitize nd.name ∉ (pyRunTask nd pid insRes funcRes s).2.locks ∧
    (∀ u, (pyRunTask nd pid insRes funcRes s).1 = .ok u →
      (pyRunTask nd pid insRes funcRes s).2.statusFile =
        some (some (statusRecord nd.name pid "done"))) ∧
    (∀ e, (pyRunTask nd pid insRes funcRes s).1 = .error e →
      (pyRunTask nd pid insRes funcRes s).2.statusFile =
        some (some (statusRecord nd.name pid "ERROR"))) := by
  rw [pyRunTask_clean hname hrun hw]
  rcases insRes with e | u
  · exact ⟨rfl, rfl, Finset.not_mem_erase _ _,
      fun u h => Except.noConfusion h, fun e2 h => rfl⟩
  · rcases funcRes with e | k
    · exact ⟨rfl, rfl, Finset.not_mem_erase _ _,
        fun u h => Except.noConfusion h, fun e2 h => rfl⟩
    · by_cases h0 : nd.numOuts = 0
      · simp only [if_pos h0]
        exact ⟨rfl, rfl, Finset.not_mem_erase _ _,
          fun u h => rfl, fun e2 h => Except.noConfusion h⟩
      · by_cases h1 : nd.numOuts = 1
        · simp only [if_neg h0, if_pos h1]
          exact ⟨rfl, rfl, Finset.not_mem_erase _ _,
            fun u h => rfl, fun e2 h => Except.noConfusion h⟩
        · by_cases hk : k ≠ nd.numOuts
          · simp only [if_neg h0, if_neg h1, if_pos hk]
            exact ⟨rfl, rfl, Finset.not_mem_erase _ _,
              fun u h => Except.noConfusion h, fun e2 h => rfl⟩
          · simp only [if_neg h0, if_neg h1, if_neg hk]
            exact ⟨rfl, rfl, Finset.not_mem_erase _ _,
              fun u h => rfl, fun e2 h => Except.noConfusion h⟩

theorem run_always_finalizes_witness :
    (pySanitize "taskA" ≠ "" ∧
      (⟨none, ∅, false, "home", false⟩ : PState).running = false ∧
      isWorkingT ⟨none, ∅, false, "home", false⟩ (some "taskA") = .ok false) ∧
    ((pyRunTask ⟨"taskA", "dirA", 2⟩ 3 (.error (.userError 0)) (.ok 2)
        ⟨none, ∅, false, "home", false⟩).2.running = false ∧
      (pyRunTask ⟨"taskA", "dirA", 2⟩ 3 (.error (.userError 0)) (.ok 2)
        ⟨none, ∅, false, "home", false⟩).2.cwd = (⟨none, ∅, false, "home", false⟩ : PState).cwd ∧
      pySanitize "taskA" ∉
        (pyRunTask ⟨"taskA", "dirA", 2⟩ 3 (.error (.userError 0)) (.ok 2)
          ⟨none, ∅, false, "home", false⟩).2.locks ∧
      (∀ u, (pyRunTask ⟨"taskA", "dirA", 2⟩ 3 (.error (.userError 0)) (.ok 2)
          ⟨none, ∅, false, "home", false⟩).1 = .ok u →
        (pyRunTask ⟨"taskA", "dirA", 2⟩ 3 (.error (.userError 0)) (.ok 2)
          ⟨none, ∅, false, "home", false⟩).2.statusFile =
          some (some (statusRecord "taskA" 3 "done"))) ∧
      (∀ e, (pyRunTask ⟨"taskA", "dirA", 2⟩ 3 (.error (.userError 0)) (.ok 2)
          ⟨none, ∅, false, "home", false⟩).1 = .error e →
        (pyRunTask ⟨"taskA", "dirA", 2⟩ 3 (.error (.userError 0)) (.ok 2)
          ⟨none, ∅, false, "home", false⟩).2.statusFile =
          some (some (statusRecord "taskA" 3 "ERROR")))) :=
  ⟨⟨by decide, rfl, rfl⟩,
    run_always_finalizes_status_and_releases_lock ⟨"taskA", "dirA", 2⟩ 3
      (.error (.userError 0)) (.ok 2) ⟨none, ∅, false, "home", false⟩
      (by decide) rfl rfl⟩

/-- C3: if, when `run()` is entered, the node's in-process `_running` flag
is set, or the directory's Status Record has status `working` and this task
name's lock marker exists, then `run()` raises a locking error immediately
— before creating the lock, writing any status, or running anything — and
the state (in particular the existing Status Record) is left untouched. -/
theorem run_fails_fast_when_locked
    (nd : NodeSpec) (pid : Nat) (insRes : Except PyErr Unit) (funcRes : Except PyErr Nat)
    (s : PState)
    (hname : pySanitize nd.name ≠ "")
    (hlock : s.running = true ∨ (statusWorkingP s ∧ pySanitize nd.name ∈ s.locks)) :
    pyRunTask nd pid insRes funcRes s = (.error .lockError, s) := by
  unfold pyRunTask pyEnter
  rw [if_neg hname]
  by_cases hr : s.running = true
  · rw [if_pos hr]
  · rcases hlock with hrun | ⟨⟨fields, hsf, hst⟩, hmem⟩
    · exact absurd hrun hr
    · rw [if_neg hr]
      have hwT : isWorkingT s (some nd.name) = .ok true := by
        unfold isWorkingT
        rw [hsf]
        simp [hst, hname, hmem]
      rw [hwT]

theorem run_fails_fast_when_locked_witness :
    (pySanitize "taskC" ≠ "" ∧
      ((⟨some (some (statusRecord "taskC" 7 "working")), {"taskC"}, true, "home", false⟩ : PState).running = true ∨
        (statusWorkingP ⟨some (some (statusRecord "taskC" 7 "working")), {"taskC"}, true, "home", false⟩ ∧
          pySanitize "taskC" ∈
            (⟨some (some (statusRecord "taskC" 7 "working")), {"taskC"}, true, "home", false⟩ : PState).locks))) ∧
    pyRunTask ⟨"taskC", "dirC", 1⟩ 9 (.ok ()) (.ok 1)
        ⟨some (some (statusRecord "taskC" 7 "working")), {"taskC"}, true, "home", false⟩ =
      (.error .lockError, ⟨some (some (statusRecord "taskC" 7 "working")), {"taskC"}, true, "home", false⟩) :=
  ⟨⟨by decide,
    Or.inr ⟨⟨[("task", .jstr "taskC"), ("pid", .jnum 7), ("status", .jstr "working")], rfl, rfl⟩,
      by decide⟩⟩,
    run_fails_fast_when_locked ⟨"taskC", "dirC", 1⟩ 9 (.ok ()) (.ok 1)
      ⟨some (some (statusRecord "taskC" 7 "working")), {"taskC"}, true, "home", false⟩
      (by decide)
      (Or.inr ⟨⟨[("task", .jstr "taskC"), ("pid", .jnum 7), ("status", .jstr "working")], rfl, rfl⟩,
        by decide⟩)⟩

/-- C7 counterexample: `is_working` is claimed never to raise, but when the
status file holds valid JSON that is not an object (here: a JSON array),
`json.load` succeeds and `sfinfo['status']` raises `TypeError`, which the
`except (IOError, ValueError, KeyError)` clause of task.py line 586 does not
catch — `is_working` propagates the exception. -/
theorem isWorking_raises_on_nonobject_status :
    isWorkingT ⟨some (some .jnonobj), ∅, false, "home", false⟩ none = .error .typeError ∧
    isWorkingT ⟨some (some .jnonobj), ∅, false, "home", false⟩ (some "taskD") =
      .error .typeError := ⟨rfl, rfl⟩

/-- C7 (amended): provided the status file is absent, unreadable,
unparseable, or parses to a JSON object, `is_working` never raises: it
returns `false` when the record is absent/unreadable/unparseable or lacks a
`status` field or has a non-`working` status; when the status is `working`
it returns `true` for no task name, and for a task name it returns whether
that name's lock marker exists (`false` for a name that sanitizes to
nothing, whose lock path cannot even be formed).  On a parsed non-object
document it raises `TypeError` (see the counterexample). -/
theorem isWorking_total_on_object_records
    (s : PState) (task : Option String)
    (h : s.statusFile = none ∨ s.statusFile = some none ∨
      ∃ fields, s.statusFile = some (some (.jobj fields))) :
    (∃ b, isWorkingT s task = .ok b) ∧
    (s.statusFile = none → isWorkingT s task = .ok false) ∧
    (s.statusFile = some none → isWorkingT s task = .ok false) ∧
    (∀ fields, s.statusFile = some (some (.jobj fields)) →
      (lookupKey fields "status" = none → isWorkingT s task = .ok false) ∧
      (∀ v, lookupKey fields "status" = some v → v ≠ .jstr "working" →
        isWorkingT s task = .ok false) ∧
      (lookupKey fields "status" = some (.jstr "working") →
        (task = none → isWorkingT s task = .ok true) ∧
        (∀ t, task = some t → pySanitize t ≠ "" →
          isWorkingT s task = .ok (decide (pySanitize t ∈ s.locks))) ∧
        (∀ t, task = some t → pySanitize t = "" → isWorkingT s task = .ok false))) := by
  have hcase : ∀ fields, s.statusFile = some (some (.jobj fields)) →
      (lookupKey fields "status" = none → isWorkingT s task = .ok false) ∧
      (∀ v, lookupKey fields "status" = some v → v ≠ .jstr "working" →
        isWorkingT s task = .ok false) ∧
      (lookupKey fields "status" = some (.jstr "working") →
        (task = none → isWorkingT s task = .ok true) ∧
        (∀ t, task = some t → pySanitize t ≠ "" →
          isWorkingT s task = .ok (decide (pySanitize t ∈ s.locks))) ∧
        (∀ t, task = some t → pySanitize t = "" → isWorkingT s task = .ok false)) := by
    intro fields hsf
    refine ⟨?_, ?_, ?_⟩
    · intro hst
      unfold isWorkingT
      rw [hsf]
      simp [hst]
    · intro v hst hv
      unfold isWorkingT
      rw [hsf]
      simp [hst, hv]
    · intro hst
      refine ⟨?_, ?_, ?_⟩
      · intro htask
        unfold isWorkingT
        rw [hsf, htask]
        simp [hst]
      · intro t htask hname
        unfold isWorkingT
        rw [hsf, htask]
        simp [hst, hname]
      · intro t htask hname
        unfold isWorkingT
        rw [hsf, htask]
        simp [hst, hname]
  refine ⟨?_, ?_, ?_, hcase⟩
  · rcases h with hsf | hsf | ⟨fields, hsf⟩
    · exact ⟨false, by unfold isWorkingT; rw [hsf]⟩
    · exact ⟨false, by unfold isWorkingT; rw [hsf]⟩
    · obtain ⟨hnone, hsome, hwork⟩ := hcase fields hsf
      cases hst : lookupKey fields "status" with
      | none => exact ⟨false, hnone hst⟩
      | some v =>
        by_cases hv : v = .jstr "working"
        · subst hv
          cases task with
          | none => exact ⟨true, (hwork hst).1 rfl⟩
          | some t =>
            by_cases hname : pySanitize t = ""
            · exact ⟨false, (hwork hst).2.2 t rfl hname⟩
            · exact ⟨_, (hwork hst).2.1 t rfl hname⟩
        · exact ⟨false, hsome v hst hv⟩
  · intro hsf
    unfold isWorkingT
    rw [hsf]
  · intro hsf
    unfold isWorkingT
    rw [hsf]

theorem isWorking_total_witness :
    ((⟨some (some (statusRecord "taskE" 4 "working")), {"taskE"}, true, "home", false⟩ : PState).statusFile = none ∨
      (⟨some (some (statusRecord "taskE" 4 "working")), {"taskE"}, true, "home", false⟩ : PState).statusFile = some none ∨
      ∃ fields, (⟨some (some (statusRecord "taskE" 4 "working")), {"taskE"}, true, "home", false⟩ : PState).statusFile =
        some (some (.jobj fields))) ∧
    ((∃ b, isWorkingT ⟨some (some (statusRecord "taskE" 4 "working")), {"taskE"}, true, "home", false⟩
        (some "taskE") = .ok b) ∧
      ((⟨some (some (statusRecord "taskE" 4 "working")), {"taskE"}, true, "home", false⟩ : PState).statusFile = none →
        isWorkingT ⟨some (some (statusRecord "taskE" 4 "working")), {"taskE"}, true, "home", false⟩
          (some "taskE") = .ok false) ∧
      ((⟨some (some (statusRecord "taskE" 4 "working")), {"taskE"}, true, "home", false⟩ : PState).statusFile = some none →
        isWorkingT ⟨some (some (statusRecord "taskE" 4 "working")), {"taskE"}, true, "home", false⟩
          (some "taskE") = .ok false) ∧
      (∀ fields, (⟨some (some (statusRecord "taskE" 4 "working")), {"taskE"}, true, "home", false⟩ : PState).statusFile =
          some (some (.jobj fields)) →
        (lookupKey fields "status" = none →
          isWorkingT ⟨some (some (statusRecord "taskE" 4 "working")), {"taskE"}, true, "home", false⟩
            (some "taskE") = .ok false) ∧
        (∀ v, lookupKey fields "status" = some v → v ≠ .jstr "working" →
          isWorkingT ⟨some (some (statusRecord "taskE" 4 "working")), {"taskE"}, true, "home", false⟩
            (some "taskE") = .ok false) ∧
        (lookupKey fields "status" = some (.jstr "working") →
          (some "taskE" = none →
            isWorkingT ⟨some (some (statusRecord "taskE" 4 "working")), {"taskE"}, true, "home", false⟩
              (some "taskE") = .ok true) ∧
          (∀ t, some "taskE" = some t → pySanitize t ≠ "" →
            isWorkingT ⟨some (some (statusRecord "taskE" 4 "working")), {"taskE"}, true, "home", false⟩
              (some "taskE") =
              .ok (decide (pySanitize t ∈
                (⟨some (some (statusRecord "taskE" 4 "working")), {"taskE"}, true, "home", false⟩ : PState).locks))) ∧
          (∀ t, some "taskE" = some t → pySanitize t = "" →
            isWorkingT ⟨some (some (statusRecord "taskE" 4 "working")), {"taskE"}, true, "home", false⟩
              (some "taskE") = .ok false)))) :=
  ⟨Or.inr (Or.inr ⟨[("task", .jstr "taskE"), ("pid", .jnum 4), ("status", .jstr "working")], rfl⟩),
    isWorking_total_on_object_records
      ⟨some (some (statusRecord "taskE" 4 "working")), {"taskE"}, true, "home", false⟩
      (some "taskE")
      (Or.inr (Or.inr ⟨[("task", .jstr "taskE"), ("pid", .jnum 4), ("status", .jstr "working")], rfl⟩))⟩

theorem statusCleared_statusFile (s : PState) : (statusCleared s).statusFile = none := by
  unfold statusCleared
  by_cases hsf : s.statusFile ≠ none
  · rw [if_pos hsf]
  · rw [if_neg hsf]
    push_neg at hsf
    exact hsf

theorem statusCleared_locks (s : PState) : (statusCleared s).locks = s.locks := by
  unfold statusCleared
  by_cases hsf : s.statusFile ≠ none
  · rw [if_pos hsf]
  · rw [if_neg hsf]

theorem statusCleared_lockDirIsDir (s : PState) :
    (statusCleared s).lockDirIsDir = s.lockDirIsDir := by
  unfold statusCleared
  by_cases hsf : s.statusFile ≠ none
  · rw [if_pos hsf]
  · rw [if_neg hsf]

/-- C9: for a registry whose lock subdirectory is distinct from its working
directory, `unlock()` deletes the Status Record file (if present) and the
entire lock subdirectory with all its markers (if present), after which
`is_working` returns `false` for any query; when the lock subdirectory *is*
the working directory (and exists), the safety assertion fires instead. -/
theorem unlock_deletes_and_unblocks
    (s : PState)
    (hinv : s.lockDirIsDir = false → s.locks = ∅) :
    (∃ s2, pyUnlock false s = .ok s2 ∧ s2.statusFile = none ∧ s2.locks = ∅ ∧
      s2.lockDirIsDir = false ∧ isWorkingT s2 none = .ok false ∧
      ∀ t, isWorkingT s2 (some t) = .ok false) ∧
    (s.lockDirIsDir = true → pyUnlock true s = .error .assertionError) := by
  constructor
  · by_cases hld : (statusCleared s).lockDirIsDir
    · refine ⟨{ statusCleared s with locks := ∅, lockDirIsDir := false }, ?_,
        statusCleared_statusFile s, rfl, rfl, ?_, fun t => ?_⟩
      · unfold pyUnlock
        rw [if_pos hld]
        simp
      · simp [isWorkingT, statusCleared_statusFile]
      · simp [isWorkingT, statusCleared_statusFile]
    · have hld2 : s.lockDirIsDir = false := by
        rw [← statusCleared_lockDirIsDir]
        simpa using hld
      refine ⟨statusCleared s, ?_, statusCleared_statusFile s, ?_, ?_, ?_, fun t => ?_⟩
      · unfold pyUnlock
        rw [if_neg hld]
      · rw [statusCleared_locks]
        exact hinv hld2
      · rw [statusCleared_lockDirIsDir]
        exact hld2
      · simp [isWorkingT, statusCleared_statusFile]
      · simp [isWorkingT, statusCleared_statusFile]
  · intro hld
    unfold pyUnlock
    rw [if_pos (show (statusCleared s).lockDirIsDir = true by
      rw [statusCleared_lockDirIsDir]; exact hld)]
    rfl

theorem unlock_deletes_and_unblocks_witness :
    ((⟨some (some (statusRecord "taskF" 2 "working")), {"taskF"}, true, "home", false⟩ : PState).lockDirIsDir = false →
      (⟨some (some (statusRecord "taskF" 2 "working")), {"taskF"}, true, "home", false⟩ : PState).locks = ∅) ∧
    ((∃ s2, pyUnlock false ⟨some (some (statusRecord "taskF" 2 "working")), {"taskF"}, true, "home", false⟩ = .ok s2 ∧
        s2.statusFile = none ∧ s2.locks = ∅ ∧ s2.lockDirIsDir = false ∧
        isWorkingT s2 none = .ok false ∧ ∀ t, isWorkingT s2 (some t) = .ok false) ∧
      ((⟨some (some (statusRecord "taskF" 2 "working")), {"taskF"}, true, "home", false⟩ : PState).lockDirIsDir = true →
        pyUnlock true ⟨some (some (statusRecord "taskF" 2 "working")), {"taskF"}, true, "home", false⟩ =
          .error .assertionError)) :=
  ⟨fun h => by simp at h,
    unlock_deletes_and_unblocks
      ⟨some (some (statusRecord "taskF" 2 "working")), {"taskF"}, true, "home", false⟩
      (fun h => by simp at h)⟩

/-! ### The claims about the dependency walker -/

/-- C4 counterexample: the traversal does not always end in a
cyclic-dependency error on a node of a cycle, nor "normally" on acyclic
graphs.  In `g4c`, node 0 lies on the cycle 0 → 2 → 0, yet `sync()` aborts
with the stale-output `RuntimeError` for the sibling task 1 before the cycle
is ever reached; and `g4a` has no dependency edges at all (so no cycle), yet
`sync()` on it terminates with that same stale-output error rather than
normally. -/
theorem sync_failure_need_not_be_cyclic :
    syncT g4c 0 [(0, 5)] = .error (.failedUpdate 1) ∧
    Reach g4c 0 0 ∧
    syncT g4a 0 [(0, 5)] = .error (.failedUpdate 0) ∧
    g4a.inputTasks = fun _ => [] :=
  ⟨by decide, Reach.cons (b := 2) (by decide) (Reach.single (by decide)), by decide, rfl⟩

/-- C4 (amended): the `_syncing` flags make every traversal terminate (the
fuel `g.n + 1` of the embedding never runs out).  On a node of a cycle,
`is_current()` and `report()` always raise a cyclic-dependency error naming
a task; `sync()` never completes — it raises a cyclic-dependency error
unless a stale-output failure aborts the traversal first.  On an acyclic
graph, `is_current()` and `report()` return normally, and `sync()` either
returns normally or raises a stale-output error. -/
theorem cycle_detection_and_termination
    (g : Graph) (v : Nat) (w : World) (hwf : g.wfG) (hv : v < g.n) :
    (Reach g v v →
      (∃ t, isCurrentT g v w = .error (.cyclic t)) ∧
      (∃ t, reportT g v w = .error (.cyclic t)) ∧
      (∃ t, syncT g v w = .error (.cyclic t) ∨ syncT g v w = .error (.failedUpdate t))) ∧
    ((∀ u, ¬ Reach g u u) →
      (∃ b, isCurrentT g v w = .ok b) ∧
      (∃ l, reportT g v w = .ok l) ∧
      ((∃ o, syncT g v w = .ok o) ∨ ∃ t, syncT g v w = .error (.failedUpdate t))) ∧
    syncT g v w ≠ .error .fuelOut := by
  have hS : ∀ u ∈ (∅ : Finset Nat), u < g.n := fun u hu => absurd hu (Finset.not_mem_empty u)
  have hbound : g.n - (∅ : Finset Nat).card < g.n + 1 := by
    rw [Finset.card_empty]
    omega
  have hnfT : walkUp g true (g.n + 1) false ∅ v w ≠ .error .fuelOut :=
    walkUp_no_fuelOut hwf (g.n + 1) ∅ v w hv hS hbound
  have hnfF : walkUp g false (g.n + 1) false ∅ v w ≠ .error .fuelOut :=
    walkUp_no_fuelOut hwf (g.n + 1) ∅ v w hv hS hbound
  refine ⟨?_, ?_, hnfT⟩
  · intro hcyc
    have hnokF : ∀ o, walkUp g false (g.n + 1) false ∅ v w ≠ .ok o := fun o ho =>
      (walkUp_ok_reach_notin (g.n + 1) ho v hcyc) (Finset.mem_insert_self v ∅)
    have hnokT : ∀ o, walkUp g true (g.n + 1) false ∅ v w ≠ .ok o := fun o ho =>
      (walkUp_ok_reach_notin (g.n + 1) ho v hcyc) (Finset.mem_insert_self v ∅)
    refine ⟨?_, ?_, ?_⟩
    · cases hres : walkUp g false (g.n + 1) false ∅ v w with
      | ok o => exact absurd hres (hnokF o)
      | error e =>
        cases e with
        | cyclic t => exact ⟨t, by simp [isCurrentT, hres, Except.map]⟩
        | failedUpdate t => exact absurd hres (walkUp_false_no_failedUpdate (g.n + 1))
        | fuelOut => exact absurd hres hnfF
    · cases hres : walkUp g false (g.n + 1) false ∅ v w with
      | ok o => exact absurd hres (hnokF o)
      | error e =>
        cases e with
        | cyclic t => exact ⟨t, by simp [reportT, hres, Except.map]⟩
        | failedUpdate t => exact absurd hres (walkUp_false_no_failedUpdate (g.n + 1))
        | fuelOut => exact absurd hres hnfF
    · cases hres : walkUp g true (g.n + 1) false ∅ v w with
      | ok o => exact absurd hres (hnokT o)
      | error e =>
        cases e with
        | cyclic t => exact ⟨t, Or.inl hres⟩
        | failedUpdate t => exact ⟨t, Or.inr hres⟩
        | fuelOut => exact absurd hres hnfT
  · intro hacyc
    have hnocycF : ∀ t, walkUp g false (g.n + 1) false ∅ v w ≠ .error (.cyclic t) := by
      intro t h
      rcases (walkUp_cyclic_inv (g.n + 1) h).2 with hmem | hloop
      · exact absurd hmem (Finset.not_mem_empty t)
      · exact hacyc t hloop
    have hnocycT : ∀ t, walkUp g true (g.n + 1) false ∅ v w ≠ .error (.cyclic t) := by
      intro t h
      rcases (walkUp_cyclic_inv (g.n + 1) h).2 with hmem | hloop
      · exact absurd hmem (Finset.not_mem_empty t)
      · exact hacyc t hloop
    refine ⟨?_, ?_, ?_⟩
    · cases hres : walkUp g false (g.n + 1) false ∅ v w with
      | ok o => exact ⟨o.res.done, by simp [isCurrentT, hres, Except.map]⟩
      | error e =>
        cases e with
        | cyclic t => exact absurd hres (hnocycF t)
        | failedUpdate t => exact absurd hres (walkUp_false_no_failedUpdate (g.n + 1))
        | fuelOut => exact absurd hres hnfF
    · cases hres : walkUp g false (g.n + 1) false ∅ v w with
      | ok o => exact ⟨pyUniq o.res.needed, by simp [reportT, hres, Except.map]⟩
      | error e =>
        cases e with
        | cyclic t => exact absurd hres (hnocycF t)
        | failedUpdate t => exact absurd hres (walkUp_false_no_failedUpdate (g.n + 1))
        | fuelOut => exact absurd hres hnfF
    · cases hres : walkUp g true (g.n + 1) false ∅ v w with
      | ok o => exact Or.inl ⟨o, hres⟩
      | error e =>
        cases e with
        | cyclic t => exact absurd hres (hnocycT t)
        | failedUpdate t => exact Or.inr ⟨t, hres⟩
        | fuelOut => exact absurd hres hnfT

theorem cycle_detection_and_termination_witness :
    (g4w.wfG ∧ 0 < g4w.n) ∧
    ((Reach g4w 0 0 →
      (∃ t, isCurrentT g4w 0 [] = .error (.cyclic t)) ∧
      (∃ t, reportT g4w 0 [] = .error (.cyclic t)) ∧
      (∃ t, syncT g4w 0 [] = .error (.cyclic t) ∨ syncT g4w 0 [] = .error (.failedUpdate t))) ∧
    ((∀ u, ¬ Reach g4w u u) →
      (∃ b, isCurrentT g4w 0 [] = .ok b) ∧
      (∃ l, reportT g4w 0 [] = .ok l) ∧
      ((∃ o, syncT g4w 0 [] = .ok o) ∨ ∃ t, syncT g4w 0 [] = .error (.failedUpdate t))) ∧
    syncT g4w 0 [] ≠ .error .fuelOut) :=
  ⟨⟨by
      intro u hu t ht
      have hu2 : u < 2 := hu
      interval_cases u <;> simp_all [g4w], by decide⟩,
    cycle_detection_and_termination g4w 0 []
      (by
      intro u hu t ht
      have hu2 : u < 2 := hu
      interval_cases u <;> simp_all [g4w]) (by decide)⟩

/-- C5: a node whose own outputs all exist (with a nonnegative newest mtime,
excluding the `-1` missing sentinel) at least as new as every present input
file and every upstream effective mtime, and all of whose upstream results
are fully current, is not re-run by the traversal: missing input files by
themselves trigger neither a run nor a warning — the node's frame returns
fully-current/done, adds nothing to `needed_tasks`, runs nothing and warns
nothing (warnings are only emitted inside the branch where a run is already
warranted, task.py lines 318-321). -/
theorem missing_inputs_never_trigger_rerun
    (g : Graph) (v : Nat) (w : World) (fuel : Nat) (S : Finset Nat)
    (ups : List WalkRes) (w1 : World) (ran1 : List Nat) (warns1 : List (Nat × Nat))
    (m : Int)
    (hvS : v ∉ S)
    (hch : walkChildren g true fuel (insert v S) (g.inputTasks v) w = .ok (ups, w1, ran1, warns1))
    (hcur : ∀ r ∈ ups, r.all_current = true)
    (hm : outputMtime g v w = some m)
    (hm0 : 0 ≤ m)
    (hup : ∀ r ∈ ups, r.mtime ≤ m)
    (hfiles : ∀ f ∈ g.inputFiles v, ∀ t, World.mtimeOf w f = some t → t ≤ m) :
    walkUp g true (fuel + 1) false S v w =
      .ok ⟨⟨true, [], v :: (ups.map (fun r => r.visited)).flatten, true, m⟩, w, [], []⟩ := by
  obtain ⟨hw1, hran1, hwarn1, hneed⟩ :=
    walkList_allcur (fun t w0 o ho hc => walkUp_allcur fuel ho hc) hch hcur
  rw [hw1, hran1, hwarn1] at hch
  have hall : ups.all (fun r => r.all_current) = true := List.all_eq_true.mpr hcur
  have hflat : (ups.map (fun r => r.needed)).flatten = [] := by
    rw [List.flatten_eq_nil_iff]
    intro l hl
    obtain ⟨r, hr, rfl⟩ := List.mem_map.mp hl
    exact hneed r hr
  have hle : pyMax (inputMtimes g v w (ups.map (fun r => r.mtime))) ≤ m := by
    apply pyMax_le _ (by omega)
    intro y hy
    simp only [inputMtimes, List.mem_append, List.mem_cons] at hy
    rcases hy with (rfl | hy) | hy
    · omega
    · obtain ⟨r, hr, rfl⟩ := List.mem_map.mp hy
      exact hup r hr
    · obtain ⟨f, hf, hmt⟩ := List.mem_filterMap.mp hy
      exact hfiles f hf y hmt
  have hsrF : shouldRun false (outputMtime g v w)
      (inputMtimes g v w (ups.map (fun r => r.mtime)))
      (ups.all (fun r => r.all_current)) = false := by
    rw [hm, hall]
    have h1 : ¬ (m < pyMax (inputMtimes g v w (ups.map (fun r => r.mtime)))) := not_lt.mpr hle
    have h2 : ¬ (m = -1) := by omega
    simp [shouldRun, h1, h2]
  rw [walkUp_succ, if_neg hvS, hch]
  simp only [walkFrame]
  rw [if_neg (by simp [hsrF])]
  rw [if_neg (by simp [hm])]
  simp [resMtime, hm, hall, hflat]

theorem missing_inputs_never_trigger_rerun_witness :
    ((0 : Nat) ∉ (∅ : Finset Nat) ∧
      walkChildren g5 true 2 (insert 0 ∅) (g5.inputTasks 0) w5 =
        .ok ([⟨true, [], [1], true, 4⟩], w5, [], []) ∧
      (∀ r ∈ [(⟨true, [], [1], true, 4⟩ : WalkRes)], r.all_current = true) ∧
      outputMtime g5 0 w5 = some 10 ∧ (0 : Int) ≤ 10 ∧
      (∀ r ∈ [(⟨true, [], [1], true, 4⟩ : WalkRes)], r.mtime ≤ 10) ∧
      World.mtimeOf w5 1 = none) ∧
    walkUp g5 true 3 false ∅ 0 w5 = .ok ⟨⟨true, [], [0, 1], true, 10⟩, w5, [], []⟩ :=
  ⟨⟨by decide, by decide, by decide, by decide, by decide, by decide, by decide⟩,
    missing_inputs_never_trigger_rerun g5 0 w5 2 ∅ [⟨true, [], [1], true, 4⟩] w5 [] [] 10
      (by decide) (by decide) (by decide) (by decide) (by decide) (by decide)
      (by
        intro f hf t ht
        have hf2 : f = 0 ∨ f = 1 := by simpa [g5] using hf
        rcases hf2 with rfl | rfl
        · have heval : World.mtimeOf w5 0 = some 3 := rfl
          rw [heval] at ht
          injection ht with ht2
          omega
        · have heval : World.mtimeOf w5 1 = none := rfl
          rw [heval] at ht
          cases ht)⟩

/-- C6 counterexample: the code's post-run check uses a strict comparison
(task.py line 324), so a run whose re-measured output mtime exactly equals
the newest dependency mtime — "not newer" in the claim's words — is accepted:
in `g6`, output file 1 is written with mtime 5 while input file 0 also has
mtime 5, and `sync()` returns successfully instead of failing. -/
theorem equal_mtime_after_run_accepted :
    syncT g6 0 [(0, 5)] =
      .ok ⟨⟨false, [0], [0], false, 5⟩, [(0, 5), (1, 5)], [0], []⟩ ∧
    outputMtime g6 0 [(0, 5), (1, 5)] = some 5 ∧
    pyMax (inputMtimes g6 0 [(0, 5)] []) = 5 := by
  refine ⟨?_, ?_, ?_⟩ <;> decide

/-- C6 (amended): when the traversal has decided to run a storing node and
recomputation is enabled, the node's user computation is executed and the
output mtime re-measured in the resulting file system; the traversal then
fails with the fatal stale-output error naming the task if and only if that
re-measured mtime (with missing outputs measured as the `-1` sentinel) is
*strictly older* than the newest of the `-1` sentinel, the upstream
effective mtimes and the present input-file mtimes. -/
theorem stale_output_check_after_run
    (g : Graph) (v : Nat) (w : World) (fuel : Nat) (S : Finset Nat)
    (ups : List WalkRes) (w1 : World) (ran1 : List Nat) (warns1 : List (Nat × Nat))
    (hvS : v ∉ S)
    (hch : walkChildren g true fuel (insert v S) (g.inputTasks v) w = .ok (ups, w1, ran1, warns1))
    (hk : g.kind v = .store)
    (hsr : shouldRun false (outputMtime g v w1)
      (inputMtimes g v w1 (ups.map (fun r => r.mtime)))
      (ups.all (fun r => r.all_current)) = true) :
    (walkUp g true (fuel + 1) false S v w = .error (.failedUpdate v) ↔
      ∃ m2, outputMtime g v (g.eff v w1) = some m2 ∧
        m2 < pyMax (inputMtimes g v w1 (ups.map (fun r => r.mtime)))) := by
  have hrd : runDispatch g v w1 = (g.eff v w1, [v]) := by
    simp [runDispatch, hk]
  rw [walkUp_succ, if_neg hvS, hch]
  simp only [walkFrame, reduceIte]
  rw [if_pos hsr, hrd]
  constructor
  · intro h
    split at h
    · next m2 hom =>
      split at h
      · next hlt => exact ⟨m2, hom, hlt⟩
      · cases h
    · next hom => cases h
  · rintro ⟨m2, hom, hlt⟩
    simp [hom, hlt]

theorem stale_output_check_witness :
    ((0 : Nat) ∉ (∅ : Finset Nat) ∧
      walkChildren gC6w true 1 (insert 0 ∅) (gC6w.inputTasks 0) [(0, 5)] =
        .ok ([], [(0, 5)], [], []) ∧
      gC6w.kind 0 = .store ∧
      shouldRun false (outputMtime gC6w 0 [(0, 5)])
        (inputMtimes gC6w 0 [(0, 5)] (List.map (fun r => r.mtime) ([] : List WalkRes)))
        (List.all ([] : List WalkRes) (fun r => r.all_current)) = true) ∧
    (walkUp gC6w true (1 + 1) false ∅ 0 [(0, 5)] = .error (.failedUpdate 0) ↔
      ∃ m2, outputMtime gC6w 0 (gC6w.eff 0 [(0, 5)]) = some m2 ∧
        m2 < pyMax (inputMtimes gC6w 0 [(0, 5)] (List.map (fun r => r.mtime) ([] : List WalkRes)))) :=
  ⟨⟨by decide, by decide, by decide, by decide⟩,
    stale_output_check_after_run gC6w 0 [(0, 5)] 1 ∅ [] [(0, 5)] [] []
      (by decide) (by decide) (by decide) (by decide)⟩

/-- C8: `report()` is `_uniq` applied to the `needed_tasks` list of the
rerun-disabled traversal, which runs no computation and leaves the file
system untouched; `_uniq` keeps each needed task exactly once, at its first
occurrence in the traversal order (`firstOccDedup` is that specification),
with the same underlying set; and — whenever both traversals return, with
computations that do not perturb the file system — the rerun-enabled
traversal of `sync()` computes exactly the same `needed_tasks` list, so
`report()` lists precisely the tasks `sync()` would run, deduplicated in
first-occurrence order. -/
theorem report_is_dedup_of_needed_without_running
    (g : Graph) (v : Nat) (w : World) (out : WalkOut)
    (h : walkUp g false (g.n + 1) false ∅ v w = .ok out) :
    reportT g v w = .ok (pyUniq out.res.needed) ∧
    out.world = w ∧ out.ran = [] ∧ out.warns = [] ∧
    (pyUniq out.res.needed).Nodup ∧
    (pyUniq out.res.needed).toFinset = out.res.needed.toFinset ∧
    pyUniq out.res.needed = firstOccDedup out.res.needed ∧
    (∀ outT, (∀ t wt, g.eff t wt = wt) →
      walkUp g true (g.n + 1) false ∅ v w = .ok outT →
      outT.res.needed = out.res.needed) := by
  obtain ⟨hw, hran, hwarn⟩ := walkUp_false_pure (g.n + 1) h
  refine ⟨by simp [reportT, h, Except.map], hw, hran, hwarn, pyUniq_nodup _, pyUniq_toFinset _,
    pyUniq_eq_firstOccDedup _, ?_⟩
  intro outT heff hT
  have heq := walkUp_effid heff (g.n + 1) hT h
  rw [heq.1]

theorem report_dedup_witness :
    walkUp gD false (gD.n + 1) false ∅ 0 wD =
      .ok ⟨⟨false, [3, 1, 3, 2, 0], [0, 1, 3, 2, 3], false, 5⟩, wD, [], []⟩ ∧
    (reportT gD 0 wD =
      .ok (pyUniq (⟨⟨false, [3, 1, 3, 2, 0], [0, 1, 3, 2, 3], false, 5⟩, wD, [], []⟩ : WalkOut).res.needed) ∧
    (⟨⟨false, [3, 1, 3, 2, 0], [0, 1, 3, 2, 3], false, 5⟩, wD, [], []⟩ : WalkOut).world = wD ∧
    (⟨⟨false, [3, 1, 3, 2, 0], [0, 1, 3, 2, 3], false, 5⟩, wD, [], []⟩ : WalkOut).ran = [] ∧
    (⟨⟨false, [3, 1, 3, 2, 0], [0, 1, 3, 2, 3], false, 5⟩, wD, [], []⟩ : WalkOut).warns = [] ∧
    (pyUniq [3, 1, 3, 2, 0]).Nodup ∧
    (pyUniq [3, 1, 3, 2, 0]).toFinset = List.toFinset [3, 1, 3, 2, 0] ∧
    pyUniq [3, 1, 3, 2, 0] = firstOccDedup [3, 1, 3, 2, 0] ∧
    (∀ outT, (∀ t wt, gD.eff t wt = wt) →
      walkUp gD true (gD.n + 1) false ∅ 0 wD = .ok outT →
      outT.res.needed = [3, 1, 3, 2, 0])) :=
  ⟨by decide,
    report_is_dedup_of_needed_without_running gD 0 wD
      ⟨⟨false, [3, 1, 3, 2, 0], [0, 1, 3, 2, 3], false, 5⟩, wD, [], []⟩ (by decide)⟩

/-- C10: a non-storing task's computation is never executed by the
traversal: (1) every task whose `run()` actually executed a computation
during any walk is a storing task (`TaskUnitNoStore.run` is `pass`, so it
acquires nothing, writes nothing and computes nothing — conjunct (2) shows
it leaves the state untouched); (3) the computation of a non-storing task
runs only through `__call__` (aliased by `load` and `force`), whose context
entry first creates the lock marker and writes the `working` status record,
and which then returns the computation's value after finalizing the status
as `done` and removing the lock. -/
theorem nostore_computation_only_via_call_protocol :
    (∀ (g : Graph) (run force : Bool) (fuel : Nat) (S : Finset Nat) (v : Nat) (w : World) out,
      walkUp g run fuel force S v w = .ok out → ∀ t ∈ out.ran, g.kind t = .store) ∧
    (∀ s : PState, pyRunNoStore s = (.ok (), s)) ∧
    (∀ (nd : NodeSpec) (pid : Nat) (insRes : Except PyErr Unit) (s : PState) (u : Unit)
      (s1 : PState),
      pyEnter nd pid insRes s = (.ok u, s1) →
      pySanitize nd.name ∈ s1.locks ∧
      s1.statusFile = some (some (statusRecord nd.name pid "working")) ∧
      s1.running = true ∧
      ∀ r : Nat, pyCallNoStore nd pid insRes (.ok r) s = (.ok r, pyExit nd pid false s.cwd s1)) := by
  refine ⟨fun g run force fuel S v w out h => walkUp_ran_store fuel h, fun s => rfl, ?_⟩
  intro nd pid insRes s u s1 h
  obtain ⟨hs1, hins⟩ := pyEnter_ok_inv h
  subst hs1
  subst hins
  refine ⟨Finset.mem_insert_self _ _, rfl, rfl, fun r => ?_⟩
  unfold pyCallNoStore
  rw [h]

theorem nostore_witness :
    (walkUp gC10 true 3 false ∅ 0 [] =
        .ok ⟨⟨false, [1, 0], [0, 1], false, 5⟩, [(0, 5)], [1], []⟩ ∧
      pyEnter ⟨"taskG", "dirG", 0⟩ 5 (.ok ()) ⟨none, ∅, false, "home", false⟩ =
        (.ok (), enterState ⟨"taskG", "dirG", 0⟩ 5 ⟨none, ∅, false, "home", false⟩)) ∧
    ((∀ t ∈ (⟨⟨false, [1, 0], [0, 1], false, 5⟩, [(0, 5)], [1], []⟩ : WalkOut).ran,
        gC10.kind t = .store) ∧
      (pySanitize "taskG" ∈ (enterState ⟨"taskG", "dirG", 0⟩ 5 ⟨none, ∅, false, "home", false⟩).locks ∧
        (enterState ⟨"taskG", "dirG", 0⟩ 5 ⟨none, ∅, false, "home", false⟩).statusFile =
          some (some (statusRecord "taskG" 5 "working")) ∧
        (enterState ⟨"taskG", "dirG", 0⟩ 5 ⟨none, ∅, false, "home", false⟩).running = true ∧
        ∀ r : Nat, pyCallNoStore ⟨"taskG", "dirG", 0⟩ 5 (.ok ()) (.ok r)
            ⟨none, ∅, false, "home", false⟩ =
          (.ok r, pyExit ⟨"taskG", "dirG", 0⟩ 5 false "home"
            (enterState ⟨"taskG", "dirG", 0⟩ 5 ⟨none, ∅, false, "home", false⟩)))) :=
  ⟨⟨by decide, by decide⟩,
    ⟨nostore_computation_only_via_call_protocol.1 gC10 true false 3 ∅ 0 []
        ⟨⟨false, [1, 0], [0, 1], false, 5⟩, [(0, 5)], [1], []⟩ (by decide),
      nostore_computation_only_via_call_protocol.2.2 ⟨"taskG", "dirG", 0⟩ 5 (.ok ())
        ⟨none, ∅, false, "home", false⟩ ()
        (enterState ⟨"taskG", "dirG", 0⟩ 5 ⟨none, ∅, false, "home", false⟩) (by decide)⟩⟩

end TaskerV